import Mathlib

/-!
Gong connector construction.

A shallow embedding of `gong/params.go` and `gong/connector.go`: the
configuration record `gongParams`, the functional options that mutate it, and
the constructor `NewConnector` with its deferred `recover` boundary.

Conventions of the embedding.

* A Go pointer (or interface value) that may be `nil` is a `Ptr`; `none` is `nil`.
* A `map[string]string` is an association list; the `nil` map is `[]`.
* A Go function that may panic returns `Applied`/`Outcome`, which carry either
  the normal result or the panic payload.  A payload is never the `nil`
  interface (since Go 1.21 `panic(nil)` raises a runtime error value).
* The collaborators that live outside the package (the provider registry
  `providers.ReadInfo` and the OAuth factory `common.NewOAuthHTTPClient`) are
  parameters of the functions that call them.  Every registry call is recorded
  in the `calls` field of a `Run`, every option invocation is counted in
  `applied`.
* The code is embedded twice. On values (namespace `gong`) a record holds the
  content of its client. On addresses (namespace `gong.mem`) the clients are
  objects of a heap, the record holds an address and an option works in
  place. `mem_NewConnector_value` shows that the second denotes the first.
  For `FromOptions` the records themselves live at addresses of a `Store`, so
  that the receiver and the copy the method works on are distinct objects.
-/

/-- A Go pointer or interface value: `none` is `nil`. -/
abbrev Ptr (α : Type) : Type := Option α

/-- A Go `map[string]string`, as an association list. -/
abbrev GoMap : Type := List (String × String)

namespace gong

/-- Error values that can flow through the package.  `ErrMissingClient` is the
package's own sentinel, `ErrMissingWorkspace` the sentinel of
`paramsbuilder.Workspace`, `nilDereference` the runtime error raised by a
nil-pointer dereference, `external` any error produced by a collaborator and
`joinError` the aggregate built by `errors.Join`. -/
inductive GoError where
  | ErrMissingClient
  | ErrMissingWorkspace
  | nilDereference
  | external (msg : String)
  | joinError (msgs : List String)
  deriving DecidableEq, Repr

/-- The value carried by a panic: an `error` value or anything else. -/
inductive Payload where
  | error (e : GoError)
  | value (v : String)
  deriving DecidableEq, Repr

/-- An implementation of the interface `common.AuthenticatedHTTPClient`,
identified by a handle. -/
structure AuthenticatedHTTPClient where
  handle : Nat
  deriving DecidableEq, Repr

/-- The error-handler slot of `common.HTTPClient`: unset, or
`common.InterpretError`. -/
inductive ErrorHandler where
  | unset
  | InterpretError
  deriving DecidableEq, Repr

/-- The fields of `common.HTTPClient` that the package touches. -/
structure HTTPClient where
  Base : String := ""
  Client : AuthenticatedHTTPClient
  ErrorHandler : ErrorHandler := .unset
  deriving DecidableEq, Repr

/-- The struct `common.JSONHTTPClient`: a pointer to a `common.HTTPClient`. -/
structure JSONHTTPClient where
  HTTPClient : Ptr HTTPClient
  deriving DecidableEq, Repr

/-- Modelled from the spec: the declaration of `paramsbuilder.Workspace` is not
among the sources; the code reads its field `Name`, the workspace identity. -/
structure Workspace where
  Name : String := ""
  deriving DecidableEq, Repr

/-- Modelled from the spec: the declaration of `paramsbuilder.APIModule` is not
among the sources; it selects the API surface and version to target and is
represented by the selector's label and version. -/
structure APIModule where
  Label : String := ""
  Version : String := ""
  deriving DecidableEq, Repr

/-- The struct `gongParams`; `{}` is its zero value. -/
structure gongParams where
  client : Ptr JSONHTTPClient := none
  Workspace : Workspace := {}
  APIModule : APIModule := {}
  substitutions : GoMap := []
  deriving DecidableEq, Repr

/-- The result of calling an option on a record: the mutated record, or the
panic the option raised. -/
inductive Applied where
  | done (params : gongParams)
  | panic (p : Payload)
  deriving DecidableEq, Repr

/-- The type `Option func(params *gongParams)`. -/
abbrev Option : Type := gongParams → Applied

/-- The struct `Connector`. -/
structure Connector where
  BaseURL : String := ""
  Client : Ptr JSONHTTPClient := none
  deriving DecidableEq, Repr

/-- The option `WithCatalogSubstitutions`. -/
def WithCatalogSubstitutions (substitutions : GoMap) : Option :=
  fun params => .done { params with substitutions := substitutions }

/-- The option `WithModule`. -/
def WithModule (module : APIModule) : Option :=
  fun params => .done { params with APIModule := module }

/-- The option `WithAuthenticatedClient`. -/
def WithAuthenticatedClient (client : AuthenticatedHTTPClient) : Option :=
  fun params => .done { params with
    client := some { HTTPClient := some { Client := client, ErrorHandler := .InterpretError } } }

/-- The OAuth inputs of `WithClient`: each is an externally owned handle. -/
structure Context where
  handle : Nat
  deriving DecidableEq, Repr

/-- A plain `*http.Client`. -/
structure HttpClient where
  handle : Nat
  deriving DecidableEq, Repr

/-- An `*oauth2.Config`. -/
structure OAuthConfig where
  handle : Nat
  deriving DecidableEq, Repr

/-- An `*oauth2.Token`. -/
structure OAuthToken where
  handle : Nat
  deriving DecidableEq, Repr

/-- The signature of the collaborator `common.NewOAuthHTTPClient` applied to the
three OAuth options built from the client, the config and the token. -/
abbrev OAuthFactory : Type :=
  Context → HttpClient → OAuthConfig → OAuthToken → Except GoError AuthenticatedHTTPClient

/-- The option `WithClient`: build the OAuth client, panic with the factory's
error, otherwise delegate to `WithAuthenticatedClient`. -/
def WithClient (NewOAuthHTTPClient : OAuthFactory) (ctx : Context) (client : HttpClient)
    (config : OAuthConfig) (token : OAuthToken) : Option :=
  fun params =>
    match NewOAuthHTTPClient ctx client config token with
    | .error err => .panic (.error err)
    | .ok oauthclient => WithAuthenticatedClient oauthclient params

/-- The method `gongParams.prepare`. -/
def gongParams.prepare (params : gongParams) : Except GoError gongParams :=
  match params.client with
  | none => .error .ErrMissingClient
  | some _ => .ok params

/-- Modelled from the spec: `paramsbuilder.Workspace.ValidateParams` is not among
the sources; the workspace must be present and non-empty, absence being reported
as a validation error distinct from the missing client. -/
def Workspace.ValidateParams (w : Workspace) : Ptr GoError :=
  if w.Name = "" then some .ErrMissingWorkspace else none

/-- The message of an error, as `errors.Join` concatenates them. -/
def GoError.message : GoError → String
  | .ErrMissingClient => "missing client"
  | .ErrMissingWorkspace => "missing workspace"
  | .nilDereference => "invalid memory address or nil pointer dereference"
  | .external msg => msg
  | .joinError msgs => "\n".intercalate msgs

/-- The library function `errors.Join`: `nil` values are discarded, and the
result is `nil` when nothing is left. -/
def errorsJoin (errs : List (Ptr GoError)) : Ptr GoError :=
  match errs.filterMap id with
  | [] => none
  | es => some (.joinError (es.map GoError.message))

/-- The method `gongParams.ValidateParams`. -/
def gongParams.ValidateParams (p : gongParams) : Ptr GoError :=
  errorsJoin [p.Workspace.ValidateParams]

/-- The loop `for _, opt := range opts { opt(params) }`, with the number of
options invoked so far. A panic ends the loop. -/
def applyOptions (params : gongParams) (invoked : Nat) : List Option → Applied × Nat
  | [] => (.done params, invoked)
  | opt :: rest =>
    match opt params with
    | .done params' => applyOptions params' (invoked + 1) rest
    | .panic p => (.panic p, invoked + 1)

/-- The method `gongParams.FromOptions`, on a copy of the receiver. A panic of
an option is not caught here. -/
def gongParams.FromOptions (p : gongParams) (opts : List Option) :
    Except Payload (gongParams × Ptr GoError) :=
  match (applyOptions p 0 opts).1 with
  | .done params => .ok (params, params.ValidateParams)
  | .panic pl => .error pl

/-- A provider identifier of the registry. -/
abbrev Provider : Type := String

/-- Modelled from the spec: the constant `providers.Gong` is not among the
sources; it is the Gong provider's identifier. -/
def providers.Gong : Provider := "gong"

/-- The part of `providers.ProviderInfo` that the package reads. -/
structure ProviderInfo where
  BaseURL : String
  deriving DecidableEq, Repr

/-- The signature of the collaborator `providers.ReadInfo`. -/
abbrev Registry : Type := Provider → GoMap → Except GoError ProviderInfo

/-- One recorded call of the registry. -/
structure ReadInfoCall where
  provider : Provider
  substitutions : GoMap
  deriving DecidableEq, Repr

/-- How a call of `NewConnector` ends: it returns its two results, or a panic
leaves it. -/
inductive Outcome where
  | returned (conn : Ptr Connector) (outErr : Ptr GoError)
  | panicked (p : Payload)
  deriving DecidableEq, Repr

/-- What a call of `NewConnector` did: its outcome, the number of options it
invoked and the registry calls it made, in order. -/
structure Run where
  outcome : Outcome
  applied : Nat
  calls : List ReadInfoCall
  deriving DecidableEq, Repr

/-- The deferred function of `NewConnector`. `recover()` is `nil` unless the body
panicked; an `error` payload becomes the error result and clears the connector,
any other payload is raised again. -/
def recoverDeferred : Outcome → Outcome
  | .returned conn outErr => .returned conn outErr
  | .panicked (.error tmp) => .returned none (some tmp)
  | .panicked (.value re) => .panicked (.value re)

/-- The statement `params.client.HTTPClient.Base = base`, which panics with a
runtime error on a nil pointer. -/
def setBase (params : gongParams) (base : String) : Applied :=
  match params.client with
  | none => .panic (.error .nilDereference)
  | some client =>
    match client.HTTPClient with
    | none => .panic (.error .nilDereference)
    | some http =>
      .done { params with client := some { client with HTTPClient := some { http with Base := base } } }

/-- The body of `NewConnector` after the option loop, before the deferred
function runs, together with the registry calls made. -/
def construct (ReadInfo : Registry) (params : gongParams) : Outcome × List ReadInfoCall :=
  match params.prepare with
  | .error err => (.returned none (some err), [])
  | .ok params =>
    let substitutions : GoMap := [("workspace", params.Workspace.Name)]
    match ReadInfo providers.Gong substitutions with
    | .error err => (.returned none (some err), [⟨providers.Gong, substitutions⟩])
    | .ok providerInfo =>
      match setBase params providerInfo.BaseURL with
      | .panic p => (.panicked p, [⟨providers.Gong, substitutions⟩])
      | .done params =>
        (.returned (some { Client := params.client }) none, [⟨providers.Gong, substitutions⟩])

/-- The function `NewConnector`. -/
def NewConnector (ReadInfo : Registry) (opts : List Option) : Run :=
  match applyOptions {} 0 opts with
  | (.panic p, n) => ⟨recoverDeferred (.panicked p), n, []⟩
  | (.done params, n) =>
    let (out, calls) := construct ReadInfo params
    ⟨recoverDeferred out, n, calls⟩

/-- A call of one of the four option constructors of the package, by its
arguments. -/
inductive OptionCall where
  | WithClient (ctx : Context) (client : HttpClient) (config : OAuthConfig) (token : OAuthToken)
  | WithModule (module : APIModule)
  | WithAuthenticatedClient (client : AuthenticatedHTTPClient)
  | WithCatalogSubstitutions (substitutions : GoMap)
  deriving DecidableEq, Repr

/-- The option a constructor call returns, given the OAuth factory in use. -/
def OptionCall.toOption (NewOAuthHTTPClient : OAuthFactory) : OptionCall → Option
  | .WithClient ctx client config token =>
    gong.WithClient NewOAuthHTTPClient ctx client config token
  | .WithModule module => gong.WithModule module
  | .WithAuthenticatedClient client => gong.WithAuthenticatedClient client
  | .WithCatalogSubstitutions substitutions => gong.WithCatalogSubstitutions substitutions

/-- The fields of `gongParams` that an option constructor of the package
assigns. -/
inductive Field where
  | client
  | APIModule
  | substitutions
  deriving DecidableEq, Repr

/-- The field a constructor call targets. -/
def OptionCall.field : OptionCall → Field
  | .WithClient _ _ _ _ => .client
  | .WithModule _ => .APIModule
  | .WithAuthenticatedClient _ => .client
  | .WithCatalogSubstitutions _ => .substitutions

/-- The calls of `WithModule`, `WithAuthenticatedClient` and
`WithCatalogSubstitutions`: they assign a field and cannot panic. -/
def OptionCall.isFieldSetter : OptionCall → Bool
  | .WithClient _ _ _ _ => false
  | _ => true

/-- The last call of a sequence that targets the given field, if any. -/
def lastFor (f : Field) (calls : List OptionCall) : Ptr OptionCall :=
  calls.reverse.find? (fun call => decide (call.field = f))

/-- The authenticated client supplied by the last call of a sequence that
targets the client: the argument of `WithAuthenticatedClient`, or what the
factory built for `WithClient`. -/
def lastClient (NewOAuthHTTPClient : OAuthFactory) (calls : List OptionCall) :
    Ptr AuthenticatedHTTPClient :=
  match lastFor .client calls with
  | some (.WithAuthenticatedClient client) => some client
  | some (.WithClient ctx client config token) =>
    match NewOAuthHTTPClient ctx client config token with
    | .ok oauthclient => some oauthclient
    | .error _ => none
  | _ => none

/-! The same code with its pointers kept as addresses (namespace `mem`): the
clients live in a heap, the record holds the address of its client, an option
mutates the record and the heap in place and may panic after doing so. -/

namespace mem

/-- The objects of the two client types allocated so far. A
`common.JSONHTTPClient` object is the pointer to its `common.HTTPClient`; the
next free address of each kind is kept, and an address not yet allocated reads
as the zero value. -/
structure Heap where
  jsonNext : Nat
  json : Nat → Ptr Nat
  httpNext : Nat
  http : Nat → HTTPClient

/-- The heap with nothing allocated. -/
def Heap.empty : Heap :=
  { jsonNext := 0, json := fun _ => none, httpNext := 0, http := fun _ => { Client := ⟨0⟩ } }

/-- The struct `gongParams`, its client being the address of a
`common.JSONHTTPClient` object. -/
structure gongParams where
  client : Ptr Nat := none
  Workspace : Workspace := {}
  APIModule : APIModule := {}
  substitutions : GoMap := []
  deriving DecidableEq, Repr

/-- What an option can reach: the heap and the record its argument points to. -/
structure State where
  heap : Heap
  params : gongParams

/-- The type `Option func(params *gongParams)`: the state after the call, and
the payload when the call panicked. -/
abbrev Option : Type := State → State × Ptr Payload

/-- The allocation `&common.HTTPClient{...}`: the new heap and the address. -/
def Heap.newHTTPClient (h : Heap) (obj : HTTPClient) : Heap × Nat :=
  ({ h with httpNext := h.httpNext + 1, http := Function.update h.http h.httpNext obj },
    h.httpNext)

/-- The allocation `&common.JSONHTTPClient{HTTPClient: ...}`: the new heap and
the address. -/
def Heap.newJSONHTTPClient (h : Heap) (HTTPClient : Ptr Nat) : Heap × Nat :=
  ({ h with jsonNext := h.jsonNext + 1, json := Function.update h.json h.jsonNext HTTPClient },
    h.jsonNext)

/-- The option `WithCatalogSubstitutions`. -/
def WithCatalogSubstitutions (substitutions : GoMap) : Option :=
  fun s => ({ s with params := { s.params with substitutions := substitutions } }, none)

/-- The option `WithModule`. -/
def WithModule (module : APIModule) : Option :=
  fun s => ({ s with params := { s.params with APIModule := module } }, none)

/-- The option `WithAuthenticatedClient`: two allocations, then the assignment
of the client. -/
def WithAuthenticatedClient (client : AuthenticatedHTTPClient) : Option :=
  fun s =>
    let (h1, b) := s.heap.newHTTPClient { Client := client, ErrorHandler := .InterpretError }
    let (h2, a) := h1.newJSONHTTPClient (some b)
    ({ heap := h2, params := { s.params with client := some a } }, none)

/-- The option `WithClient`: a failing factory panics before anything is
written. -/
def WithClient (NewOAuthHTTPClient : OAuthFactory) (ctx : Context) (client : HttpClient)
    (config : OAuthConfig) (token : OAuthToken) : Option :=
  fun s =>
    match NewOAuthHTTPClient ctx client config token with
    | .error err => (s, some (.error err))
    | .ok oauthclient => WithAuthenticatedClient oauthclient s

/-- The option a constructor call returns, given the OAuth factory in use. -/
def ofCall (NewOAuthHTTPClient : OAuthFactory) : OptionCall → Option
  | .WithClient ctx client config token => WithClient NewOAuthHTTPClient ctx client config token
  | .WithModule module => WithModule module
  | .WithAuthenticatedClient client => WithAuthenticatedClient client
  | .WithCatalogSubstitutions substitutions => WithCatalogSubstitutions substitutions

/-- The loop `for _, opt := range opts { opt(params) }`, with the number of
options invoked so far. A panic ends the loop. -/
def applyOptions (s : State) (invoked : Nat) : List Option → State × Ptr Payload × Nat
  | [] => (s, none, invoked)
  | opt :: rest =>
    match opt s with
    | (s', none) => applyOptions s' (invoked + 1) rest
    | (s', some p) => (s', some p, invoked + 1)

/-- The method `gongParams.prepare`. -/
def gongParams.prepare (params : gongParams) : Except GoError gongParams :=
  match params.client with
  | none => .error .ErrMissingClient
  | some _ => .ok params

/-- The statement `params.client.HTTPClient.Base = base`, which panics with a
runtime error on a nil pointer. -/
def setBase (s : State) (base : String) : State × Ptr Payload :=
  match s.params.client with
  | none => (s, some (.error .nilDereference))
  | some a =>
    match s.heap.json a with
    | none => (s, some (.error .nilDereference))
    | some b =>
      ({ s with heap := { s.heap with
          http := Function.update s.heap.http b { s.heap.http b with Base := base } } }, none)

/-- The struct `Connector`, its client being an address. -/
structure Connector where
  BaseURL : String := ""
  Client : Ptr Nat := none
  deriving DecidableEq, Repr

/-- How a call of `NewConnector` ends. -/
inductive Outcome where
  | returned (conn : Ptr Connector) (outErr : Ptr GoError)
  | panicked (p : Payload)
  deriving DecidableEq, Repr

/-- What a call of `NewConnector` did, and the heap it leaves. -/
structure Run where
  outcome : Outcome
  applied : Nat
  calls : List ReadInfoCall
  heap : Heap

/-- The deferred function of `NewConnector`. -/
def recoverDeferred : Outcome → Outcome
  | .returned conn outErr => .returned conn outErr
  | .panicked (.error tmp) => .returned none (some tmp)
  | .panicked (.value re) => .panicked (.value re)

/-- The body of `NewConnector` after the option loop, before the deferred
function runs: the outcome, the registry calls made and the heap left. -/
def construct (ReadInfo : Registry) (s : State) : Outcome × List ReadInfoCall × Heap :=
  match s.params.prepare with
  | .error err => (.returned none (some err), [], s.heap)
  | .ok params =>
    let substitutions : GoMap := [("workspace", params.Workspace.Name)]
    match ReadInfo providers.Gong substitutions with
    | .error err => (.returned none (some err), [⟨providers.Gong, substitutions⟩], s.heap)
    | .ok providerInfo =>
      match setBase { s with params := params } providerInfo.BaseURL with
      | (s', some p) => (.panicked p, [⟨providers.Gong, substitutions⟩], s'.heap)
      | (s', none) =>
        (.returned (some { Client := s'.params.client }) none,
          [⟨providers.Gong, substitutions⟩], s'.heap)

/-- The function `NewConnector`, called on the heap `h`: the record is the
fresh `&gongParams{}`. -/
def NewConnector (ReadInfo : Registry) (opts : List Option) (h : Heap) : Run :=
  match applyOptions { heap := h, params := {} } 0 opts with
  | (s, some p, n) => ⟨recoverDeferred (.panicked p), n, [], s.heap⟩
  | (s, none, n) =>
    let (out, calls, h') := construct ReadInfo s
    ⟨recoverDeferred out, n, calls, h'⟩

/-- The client object an address denotes in a heap, followed through its
`HTTPClient` pointer. -/
def Heap.load (h : Heap) : Ptr Nat → Ptr JSONHTTPClient
  | none => none
  | some a =>
    some { HTTPClient := match h.json a with
                         | none => none
                         | some b => some (h.http b) }

/-- The record a state denotes, its client read from the heap. -/
def State.value (s : State) : gong.gongParams :=
  { client := s.heap.load s.params.client
    Workspace := s.params.Workspace
    APIModule := s.params.APIModule
    substitutions := s.params.substitutions }

/-- The outcome an address-level outcome denotes in a heap, the client of its
connector read from that heap. -/
def Outcome.value (h : Heap) : Outcome → gong.Outcome
  | .returned none outErr => .returned none outErr
  | .returned (some conn) outErr =>
    .returned (some { BaseURL := conn.BaseURL, Client := h.load conn.Client }) outErr
  | .panicked p => .panicked p

/-- The run an address-level run denotes, its outcome read in the heap the run
leaves. -/
def Run.value (run : Run) : gong.Run :=
  { outcome := run.outcome.value run.heap
    applied := run.applied
    calls := run.calls }

/-- The method `gongParams.ValidateParams`, on a record that holds addresses. -/
def gongParams.ValidateParams (p : gongParams) : Ptr GoError :=
  errorsJoin [p.Workspace.ValidateParams]

/-- The client heap together with the `gongParams` records that live at an
address: the variables of a caller and the parameters of a method whose address
is taken. An address not yet allocated reads as the zero record. -/
structure Store where
  heap : Heap
  recordsNext : Nat
  records : Nat → gongParams

/-- The call `opt(params)` with `params` the address of a record: the option
reads and writes the record at that address, and the heap. -/
def callOption (opt : Option) (st : Store) (params : Nat) : Store × Ptr Payload :=
  match opt { heap := st.heap, params := st.records params } with
  | (s', p) =>
    ({ st with heap := s'.heap, records := Function.update st.records params s'.params }, p)

/-- The loop `for _, opt := range opts { opt(params) }` of `FromOptions`, with
`params` the address of a record. A panic ends the loop. -/
def applyOptionsAt (st : Store) (params : Nat) : List Option → Store × Ptr Payload
  | [] => (st, none)
  | opt :: rest =>
    match callOption opt st params with
    | (st', none) => applyOptionsAt st' params rest
    | (st', some p) => (st', some p)

/-- What a call of `FromOptions` did: the store it leaves, the pointer and the
error it returned, and the payload when an option panicked. -/
structure FromOptionsRun where
  store : Store
  params : Ptr Nat
  err : Ptr GoError
  panicked : Ptr Payload

/-- The method `gongParams.FromOptions`, called on the record at the address
`receiver`. The receiver is a value receiver: the parameter `p` is a new record
initialised with the receiver's fields, `params := &p` is its address, the
options are called on that address, and that address is returned together with
the validation error of the record it holds. -/
def FromOptions (st : Store) (receiver : Nat) (opts : List Option) : FromOptionsRun :=
  let params := st.recordsNext
  let st₁ : Store :=
    { st with recordsNext := st.recordsNext + 1
              records := Function.update st.records params (st.records receiver) }
  match applyOptionsAt st₁ params opts with
  | (st₂, some pl) => { store := st₂, params := none, err := none, panicked := some pl }
  | (st₂, none) =>
    { store := st₂, params := some params, err := (st₂.records params).ValidateParams,
      panicked := none }

/-- An in-place option denotes a value-level option when, on every state, what
it does to the record and the heap is what the value-level option does to the
record the state denotes: its effect depends on the values the record holds,
not on the addresses or on anything else in the heap. -/
def Denotes (m : Option) (o : gong.Option) : Prop :=
  ∀ s : State, o s.value =
    match m s with
    | (s', none) => .done s'.value
    | (_, some p) => .panic p

end mem

/-- The record that the field-wise last calls of a sequence leave when applied
from `r`: each field holds what the last call targeting it assigned, or what
`r` held when no call targets it. -/
def lastWrites (NewOAuthHTTPClient : OAuthFactory) (r : gongParams)
    (calls : List OptionCall) : gongParams :=
  { client :=
      match lastClient NewOAuthHTTPClient calls with
      | some client =>
        some { HTTPClient := some { Client := client, ErrorHandler := .InterpretError } }
      | none => r.client
    Workspace := r.Workspace
    APIModule :=
      match lastFor .APIModule calls with
      | some (.WithModule module) => module
      | _ => r.APIModule
    substitutions :=
      match lastFor .substitutions calls with
      | some (.WithCatalogSubstitutions substitutions) => substitutions
      | _ => r.substitutions }

end gong

namespace gong

/-! The option loop -/

/-- The loop over a concatenation runs the first part and, unless that
panicked, continues with the second part from the record reached. -/
theorem applyOptions_append (pre post : List Option) (params : gongParams) (n : Nat) :
    applyOptions params n (pre ++ post) =
      match applyOptions params n pre with
      | (.done params', m) => applyOptions params' m post
      | (.panic p, m) => (.panic p, m) := by
  induction pre generalizing params n with
  | nil => simp [applyOptions]
  | cons opt rest ih =>
    simp only [List.cons_append, applyOptions]
    cases opt params with
    | done params' => simpa using ih params' (n + 1)
    | panic p => simp

/-- A loop that ends normally has invoked every option. -/
theorem applyOptions_invoked (opts : List Option) (params params' : gongParams) (n : Nat)
    (h : (applyOptions params n opts).1 = .done params') :
    (applyOptions params n opts).2 = n + opts.length := by
  induction opts generalizing params n with
  | nil => simp [applyOptions]
  | cons opt rest ih =>
    simp only [applyOptions] at h ⊢
    cases hopt : opt params with
    | done q =>
      rw [hopt] at h
      simp only at h ⊢
      rw [ih q (n + 1) h]
      simp only [List.length_cons]
      omega
    | panic p =>
      rw [hopt] at h
      simp at h

/-- When the option loop ends normally with record `r`, `NewConnector` is the
rest of its body on `r`, seen through the deferred function. -/
theorem NewConnector_of_done (ReadInfo : Registry) (opts : List Option) (r : gongParams)
    (h : (applyOptions {} 0 opts).1 = .done r) :
    NewConnector ReadInfo opts =
      ⟨recoverDeferred (construct ReadInfo r).1, opts.length, (construct ReadInfo r).2⟩ := by
  have hn := applyOptions_invoked opts {} r 0 h
  unfold NewConnector
  rcases hres : applyOptions {} 0 opts with ⟨a, n⟩
  rw [hres] at h hn
  simp only at h hn
  subst h
  simp [hn]

/-- When an option panics after a prefix that applied normally, `NewConnector` is
the deferred function on that panic: no later option runs, no registry call. -/
theorem NewConnector_of_panic (ReadInfo : Registry) (pre post : List Option) (opt : Option)
    (r : gongParams) (p : Payload)
    (hpre : (applyOptions {} 0 pre).1 = .done r) (hopt : opt r = .panic p) :
    NewConnector ReadInfo (pre ++ opt :: post) =
      ⟨recoverDeferred (.panicked p), pre.length + 1, []⟩ := by
  have hn := applyOptions_invoked pre {} r 0 hpre
  unfold NewConnector
  rw [applyOptions_append]
  rcases hres : applyOptions {} 0 pre with ⟨a, n⟩
  rw [hres] at hpre hn
  simp only at hpre hn
  subst hpre
  simp [applyOptions, hopt, hn]

/-- The body after the loop makes no registry call, or exactly one: for the
Gong provider, with the single entry `workspace` bound to the record's
workspace name. -/
theorem construct_calls (ReadInfo : Registry) (r : gongParams) :
    (construct ReadInfo r).2 = [] ∨
      (construct ReadInfo r).2 = [⟨providers.Gong, [("workspace", r.Workspace.Name)]⟩] := by
  unfold construct gongParams.prepare
  cases hc : r.client with
  | none => simp
  | some jc =>
    simp only
    cases ReadInfo providers.Gong [("workspace", r.Workspace.Name)] with
    | error err => simp
    | ok info =>
      simp only
      cases setBase r info.BaseURL <;> simp

/-- The body after the loop never returns a connector together with an error,
nor neither of them. -/
theorem construct_exclusive (ReadInfo : Registry) (r : gongParams) (conn : Ptr Connector)
    (err : Ptr GoError) (h : recoverDeferred (construct ReadInfo r).1 = .returned conn err) :
    (conn ≠ none ↔ err = none) := by
  unfold construct gongParams.prepare at h
  cases hc : r.client with
  | none =>
    rw [hc] at h
    simp only [recoverDeferred] at h
    injection h with h1 h2
    subst h1 h2
    simp
  | some jc =>
    rw [hc] at h
    simp only at h
    cases hreg : ReadInfo providers.Gong [("workspace", r.Workspace.Name)] with
    | error e =>
      rw [hreg] at h
      simp only [recoverDeferred] at h
      injection h with h1 h2
      subst h1 h2
      simp
    | ok info =>
      rw [hreg] at h
      simp only at h
      cases hset : setBase r info.BaseURL with
      | done q =>
        rw [hset] at h
        simp only [recoverDeferred] at h
        injection h with h1 h2
        subst h1 h2
        simp
      | panic p =>
        rw [hset] at h
        cases p with
        | error e =>
          simp only [recoverDeferred] at h
          injection h with h1 h2
          subst h1 h2
          simp
        | value v => simp [recoverDeferred] at h

/-- The body after the loop on a record whose client wraps an HTTP client. -/
theorem construct_of_client (ReadInfo : Registry) (r : gongParams) (jc : JSONHTTPClient)
    (http : HTTPClient) (hclient : r.client = some jc) (hhttp : jc.HTTPClient = some http) :
    construct ReadInfo r =
      (match ReadInfo providers.Gong [("workspace", r.Workspace.Name)] with
        | .error err => .returned none (some err)
        | .ok providerInfo =>
          .returned (some { BaseURL := "",
                            Client := some { HTTPClient := some { http with Base := providerInfo.BaseURL } } })
            none,
       [⟨providers.Gong, [("workspace", r.Workspace.Name)]⟩]) := by
  unfold construct gongParams.prepare
  rw [hclient]
  simp only
  cases ReadInfo providers.Gong [("workspace", r.Workspace.Name)] with
  | error err => rfl
  | ok info => simp [setBase, hclient, hhttp]


/-! Construction: readiness, validation and resolution -/

/-- C1 (as stated, refuted): with the single option `WithAuthenticatedClient` the
record has a client and an empty workspace name, yet `NewConnector` returns a
connector and a nil error, after one registry call: no validation error is
returned and provider resolution is reached. -/
theorem NewConnector_empty_workspace_not_rejected :
    (applyOptions {} 0 [WithAuthenticatedClient ⟨7⟩]).1 =
        .done { client := some { HTTPClient := some (.mk "" ⟨7⟩ .InterpretError) },
                Workspace := { Name := "" } } ∧
      (NewConnector (fun _ _ => .ok ⟨"https://api.gong.io"⟩) [WithAuthenticatedClient ⟨7⟩]).outcome =
        .returned (some { BaseURL := "",
                          Client := some { HTTPClient := some (.mk "https://api.gong.io" ⟨7⟩ .InterpretError) } })
          none ∧
      (NewConnector (fun _ _ => .ok ⟨"https://api.gong.io"⟩) [WithAuthenticatedClient ⟨7⟩]).calls =
        [⟨"gong", [("workspace", "")]⟩] ∧
      ¬ ∃ e, (NewConnector (fun _ _ => .ok ⟨"https://api.gong.io"⟩)
          [WithAuthenticatedClient ⟨7⟩]).outcome = .returned none (some e) := by
  refine ⟨by decide, by decide, by decide, ?_⟩
  rintro ⟨e, he⟩
  have h : (NewConnector (fun _ _ => .ok ⟨"https://api.gong.io"⟩)
      [WithAuthenticatedClient ⟨7⟩]).outcome =
        .returned (some { BaseURL := "",
                          Client := some { HTTPClient := some (.mk "https://api.gong.io" ⟨7⟩ .InterpretError) } })
          none := by decide
  rw [h] at he
  cases he

/-- C1 (amended): for every option sequence that applies without a panic, sets a
client wrapping an HTTP client and leaves the workspace name empty,
`NewConnector` runs no field validation: it invokes every option, calls the
registry once with the Gong identifier and `workspace` bound to the empty
string, and returns what resolution yields, the registry's error with a nil
connector or a connector with a nil error. -/
theorem NewConnector_empty_workspace_reaches_resolution (ReadInfo : Registry)
    (opts : List Option) (r : gongParams) (jc : JSONHTTPClient) (http : HTTPClient)
    (happ : (applyOptions {} 0 opts).1 = .done r)
    (hclient : r.client = some jc) (hhttp : jc.HTTPClient = some http)
    (hws : r.Workspace.Name = "") :
    NewConnector ReadInfo opts =
      ⟨match ReadInfo providers.Gong [("workspace", "")] with
        | .error err => .returned none (some err)
        | .ok providerInfo =>
          .returned (some { BaseURL := "",
                            Client := some { HTTPClient := some { http with Base := providerInfo.BaseURL } } })
            none,
       opts.length,
       [⟨providers.Gong, [("workspace", "")]⟩]⟩ := by
  rw [NewConnector_of_done ReadInfo opts r happ, construct_of_client ReadInfo r jc http hclient hhttp,
    hws]
  cases ReadInfo providers.Gong [("workspace", "")] <;> rfl

/-- Witness of `NewConnector_empty_workspace_reaches_resolution`: one option
setting the client, a registry that fails. -/
theorem NewConnector_empty_workspace_reaches_resolution_witness :
    NewConnector (fun _ _ => .error (.external "unknown provider")) [WithAuthenticatedClient ⟨7⟩] =
      ⟨.returned none (some (.external "unknown provider")), 1, [⟨"gong", [("workspace", "")]⟩]⟩ :=
  NewConnector_empty_workspace_reaches_resolution (fun _ _ => .error (.external "unknown provider"))
    [WithAuthenticatedClient ⟨7⟩]
    { client := some { HTTPClient := some { Client := ⟨7⟩, ErrorHandler := .InterpretError } } }
    { HTTPClient := some { Client := ⟨7⟩, ErrorHandler := .InterpretError } }
    { Client := ⟨7⟩, ErrorHandler := .InterpretError }
    (by decide) rfl rfl rfl

/-- C2: for every option sequence that applies without a panic and leaves the
client absent, `NewConnector` returns `ErrMissingClient` with a nil connector
and makes no registry call, whatever the workspace, module and substitutions
of the record and whatever the registry. -/
theorem NewConnector_missing_client (ReadInfo : Registry) (opts : List Option) (r : gongParams)
    (happ : (applyOptions {} 0 opts).1 = .done r) (hclient : r.client = none) :
    NewConnector ReadInfo opts = ⟨.returned none (some .ErrMissingClient), opts.length, []⟩ := by
  rw [NewConnector_of_done ReadInfo opts r happ]
  simp [construct, gongParams.prepare, hclient, recoverDeferred]

/-- Witness of `NewConnector_missing_client`: a module and substitutions are
set, a client is not. -/
theorem NewConnector_missing_client_witness :
    NewConnector (fun _ _ => .ok ⟨"https://api.gong.io"⟩)
        [WithModule ⟨"calls", "v2"⟩, WithCatalogSubstitutions [("workspace", "acme")]] =
      ⟨.returned none (some .ErrMissingClient), 2, []⟩ :=
  NewConnector_missing_client (fun _ _ => .ok ⟨"https://api.gong.io"⟩)
    [WithModule ⟨"calls", "v2"⟩, WithCatalogSubstitutions [("workspace", "acme")]]
    { APIModule := ⟨"calls", "v2"⟩, substitutions := [("workspace", "acme")] }
    (by decide) rfl

/-- C3 (as stated, refuted): the registry resolves to the base URL
`https://api.example.com`, and the connector returned has the empty string in
its `BaseURL` field. -/
theorem NewConnector_BaseURL_field_unset :
    (NewConnector (fun _ _ => .ok ⟨"https://api.example.com"⟩) [WithAuthenticatedClient ⟨7⟩]).outcome =
        .returned (some { BaseURL := "",
                          Client := some { HTTPClient := some (.mk "https://api.example.com" ⟨7⟩ .InterpretError) } })
          none ∧
      ¬ ∃ conn err, (NewConnector (fun _ _ => .ok ⟨"https://api.example.com"⟩)
          [WithAuthenticatedClient ⟨7⟩]).outcome = .returned (some conn) err ∧
          conn.BaseURL = "https://api.example.com" := by
  have h : (NewConnector (fun _ _ => .ok ⟨"https://api.example.com"⟩)
      [WithAuthenticatedClient ⟨7⟩]).outcome =
        .returned (some { BaseURL := "",
                          Client := some { HTTPClient := some (.mk "https://api.example.com" ⟨7⟩ .InterpretError) } })
          none := by decide
  refine ⟨h, ?_⟩
  rintro ⟨conn, err, hout, hurl⟩
  rw [h] at hout
  injection hout with hconn _
  injection hconn with hconn
  subst hconn
  revert hurl
  decide

/-- C3 (amended): for every option sequence that applies without a panic and sets
a client wrapping an HTTP client, and every registry that resolves to a
`ProviderInfo` with base URL `u`, `NewConnector` returns a connector whose
`BaseURL` field is the empty string; `u` is held by the connector's client, in
`Client.HTTPClient.Base`. -/
theorem NewConnector_resolved_base (ReadInfo : Registry) (opts : List Option) (r : gongParams)
    (jc : JSONHTTPClient) (http : HTTPClient) (providerInfo : ProviderInfo)
    (happ : (applyOptions {} 0 opts).1 = .done r)
    (hclient : r.client = some jc) (hhttp : jc.HTTPClient = some http)
    (hreg : ReadInfo providers.Gong [("workspace", r.Workspace.Name)] = .ok providerInfo) :
    ∃ conn, (NewConnector ReadInfo opts).outcome = .returned (some conn) none ∧
      conn.BaseURL = "" ∧
      conn.Client = some { HTTPClient := some { http with Base := providerInfo.BaseURL } } := by
  rw [NewConnector_of_done ReadInfo opts r happ, construct_of_client ReadInfo r jc http hclient hhttp,
    hreg]
  exact ⟨_, rfl, rfl, rfl⟩

/-- Witness of `NewConnector_resolved_base`: the registry resolves to
`https://api.example.com`. -/
theorem NewConnector_resolved_base_witness :
    ∃ conn, (NewConnector (fun _ _ => .ok ⟨"https://api.example.com"⟩)
        [WithModule ⟨"calls", "v2"⟩, WithAuthenticatedClient ⟨7⟩]).outcome =
          .returned (some conn) none ∧
      conn.BaseURL = "" ∧
      conn.Client = some { HTTPClient := some (.mk "https://api.example.com" ⟨7⟩ .InterpretError) } :=
  NewConnector_resolved_base (fun _ _ => .ok ⟨"https://api.example.com"⟩)
    [WithModule ⟨"calls", "v2"⟩, WithAuthenticatedClient ⟨7⟩]
    { client := some { HTTPClient := some { Client := ⟨7⟩, ErrorHandler := .InterpretError } },
      APIModule := ⟨"calls", "v2"⟩ }
    { HTTPClient := some { Client := ⟨7⟩, ErrorHandler := .InterpretError } }
    { Client := ⟨7⟩, ErrorHandler := .InterpretError }
    ⟨"https://api.example.com"⟩
    (by decide) rfl rfl rfl


/-- C4 (as stated, refuted): the registry returns successfully with an empty base
URL, and `NewConnector` returns a connector and a nil error, the empty string
having been assigned as the client's base URL; no error is returned. -/
theorem NewConnector_empty_base_accepted :
    (NewConnector (fun _ _ => .ok ⟨""⟩) [WithAuthenticatedClient ⟨7⟩]).outcome =
        .returned (some { BaseURL := "",
                          Client := some { HTTPClient := some (.mk "" ⟨7⟩ .InterpretError) } })
          none ∧
      ¬ ∃ e, (NewConnector (fun _ _ => .ok ⟨""⟩) [WithAuthenticatedClient ⟨7⟩]).outcome =
          .returned none (some e) := by
  have h : (NewConnector (fun _ _ => .ok ⟨""⟩) [WithAuthenticatedClient ⟨7⟩]).outcome =
      .returned (some { BaseURL := "",
                        Client := some { HTTPClient := some (.mk "" ⟨7⟩ .InterpretError) } })
        none := by decide
  refine ⟨h, ?_⟩
  rintro ⟨e, he⟩
  rw [h] at he
  cases he

/-- C4 (amended): for every option sequence that applies without a panic and sets
a client wrapping an HTTP client, if the registry returns successfully with an
empty base URL, `NewConnector` makes no emptiness check: it returns a connector
with a nil error, and the base URL of the connector's client is the empty
string. -/
theorem NewConnector_empty_base (ReadInfo : Registry) (opts : List Option) (r : gongParams)
    (jc : JSONHTTPClient) (http : HTTPClient) (providerInfo : ProviderInfo)
    (happ : (applyOptions {} 0 opts).1 = .done r)
    (hclient : r.client = some jc) (hhttp : jc.HTTPClient = some http)
    (hreg : ReadInfo providers.Gong [("workspace", r.Workspace.Name)] = .ok providerInfo)
    (hempty : providerInfo.BaseURL = "") :
    (NewConnector ReadInfo opts).outcome =
      .returned (some { BaseURL := "",
                        Client := some { HTTPClient := some { http with Base := "" } } })
        none := by
  rw [NewConnector_of_done ReadInfo opts r happ, construct_of_client ReadInfo r jc http hclient hhttp,
    hreg, ← hempty]
  rfl

/-- Witness of `NewConnector_empty_base`: a registry whose answer has no base
URL. -/
theorem NewConnector_empty_base_witness :
    (NewConnector (fun _ _ => .ok ⟨""⟩)
        [WithAuthenticatedClient ⟨3⟩, WithModule ⟨"calls", "v2"⟩]).outcome =
      .returned (some { BaseURL := "",
                        Client := some { HTTPClient := some (.mk "" ⟨3⟩ .InterpretError) } })
        none :=
  NewConnector_empty_base (fun _ _ => .ok ⟨""⟩)
    [WithAuthenticatedClient ⟨3⟩, WithModule ⟨"calls", "v2"⟩]
    { client := some { HTTPClient := some { Client := ⟨3⟩, ErrorHandler := .InterpretError } },
      APIModule := ⟨"calls", "v2"⟩ }
    { HTTPClient := some { Client := ⟨3⟩, ErrorHandler := .InterpretError } }
    { Client := ⟨3⟩, ErrorHandler := .InterpretError }
    ⟨""⟩
    (by decide) rfl rfl rfl rfl

/-- C5: for every option sequence that applies without a panic and sets a client,
if the registry call returns the error `e`, `NewConnector` returns a nil
connector and the non-nil error `e` itself, and the registry has been called
exactly once. -/
theorem NewConnector_registry_error (ReadInfo : Registry) (opts : List Option) (r : gongParams)
    (jc : JSONHTTPClient) (e : GoError)
    (happ : (applyOptions {} 0 opts).1 = .done r) (hclient : r.client = some jc)
    (hreg : ReadInfo providers.Gong [("workspace", r.Workspace.Name)] = .error e) :
    (NewConnector ReadInfo opts).outcome = .returned none (some e) ∧
      (NewConnector ReadInfo opts).calls =
        [⟨providers.Gong, [("workspace", r.Workspace.Name)]⟩] ∧
      (NewConnector ReadInfo opts).calls.length = 1 := by
  rw [NewConnector_of_done ReadInfo opts r happ]
  simp [construct, gongParams.prepare, hclient, hreg, recoverDeferred]

/-- Witness of `NewConnector_registry_error`: the registry does not know the
provider. -/
theorem NewConnector_registry_error_witness :
    (NewConnector (fun _ _ => .error (.external "provider not found"))
        [WithAuthenticatedClient ⟨7⟩]).outcome =
        .returned none (some (.external "provider not found")) ∧
      (NewConnector (fun _ _ => .error (.external "provider not found"))
        [WithAuthenticatedClient ⟨7⟩]).calls = [⟨"gong", [("workspace", "")]⟩] ∧
      (NewConnector (fun _ _ => .error (.external "provider not found"))
        [WithAuthenticatedClient ⟨7⟩]).calls.length = 1 :=
  NewConnector_registry_error (fun _ _ => .error (.external "provider not found"))
    [WithAuthenticatedClient ⟨7⟩]
    { client := some { HTTPClient := some { Client := ⟨7⟩, ErrorHandler := .InterpretError } } }
    { HTTPClient := some { Client := ⟨7⟩, ErrorHandler := .InterpretError } }
    (.external "provider not found")
    (by decide) rfl rfl

/-! The recovery boundary -/

/-- C6: let an option panic on the record `r` reached by the options before it.
If the payload is an error value `e`, `NewConnector` returns a nil connector
and exactly `e`; if the payload is another value `v`, `NewConnector` does not
return and the panic leaves it with payload `v`. In both cases the options
after the panicking one are not invoked and the registry is not called. In
particular, when the OAuth factory of `WithClient` fails with `e`,
`NewConnector` returns a nil connector and `e`. -/
theorem NewConnector_option_panic (ReadInfo : Registry) (pre post : List Option) (r : gongParams)
    (hpre : (applyOptions {} 0 pre).1 = .done r) :
    (∀ (opt : Option) (e : GoError), opt r = .panic (.error e) →
        NewConnector ReadInfo (pre ++ opt :: post) =
          ⟨.returned none (some e), pre.length + 1, []⟩) ∧
      (∀ (opt : Option) (v : String), opt r = .panic (.value v) →
        NewConnector ReadInfo (pre ++ opt :: post) =
          ⟨.panicked (.value v), pre.length + 1, []⟩) ∧
      (∀ (NewOAuthHTTPClient : OAuthFactory) (ctx : Context) (client : HttpClient)
          (config : OAuthConfig) (token : OAuthToken) (e : GoError),
        NewOAuthHTTPClient ctx client config token = .error e →
        NewConnector ReadInfo
            (pre ++ WithClient NewOAuthHTTPClient ctx client config token :: post) =
          ⟨.returned none (some e), pre.length + 1, []⟩) := by
  refine ⟨?_, ?_, ?_⟩
  · intro opt e hopt
    rw [NewConnector_of_panic ReadInfo pre post opt r _ hpre hopt]
    rfl
  · intro opt v hopt
    rw [NewConnector_of_panic ReadInfo pre post opt r _ hpre hopt]
    rfl
  · intro F ctx client config token e hF
    have hopt : WithClient F ctx client config token r = .panic (.error e) := by
      simp [WithClient, hF]
    rw [NewConnector_of_panic ReadInfo pre post _ r _ hpre hopt]
    rfl

/-- Witness of `NewConnector_option_panic`: after `WithModule`, an option that
panics with an error, one that panics with a string, and a `WithClient` whose
factory fails; a `WithAuthenticatedClient` follows and is never invoked. -/
theorem NewConnector_option_panic_witness :
    NewConnector (fun _ _ => .ok ⟨"https://api.gong.io"⟩)
        ([WithModule ⟨"calls", "v2"⟩] ++
          (fun _ => .panic (.error (.external "bad option"))) :: [WithAuthenticatedClient ⟨7⟩]) =
        ⟨.returned none (some (.external "bad option")), 2, []⟩ ∧
      NewConnector (fun _ _ => .ok ⟨"https://api.gong.io"⟩)
        ([WithModule ⟨"calls", "v2"⟩] ++
          (fun _ => .panic (.value "index out of range")) :: [WithAuthenticatedClient ⟨7⟩]) =
        ⟨.panicked (.value "index out of range"), 2, []⟩ ∧
      NewConnector (fun _ _ => .ok ⟨"https://api.gong.io"⟩)
        ([WithModule ⟨"calls", "v2"⟩] ++
          WithClient (fun _ _ _ _ => .error (.external "oauth: no token")) ⟨0⟩ ⟨1⟩ ⟨2⟩ ⟨3⟩ ::
            [WithAuthenticatedClient ⟨7⟩]) =
        ⟨.returned none (some (.external "oauth: no token")), 2, []⟩ :=
  have h := NewConnector_option_panic (fun _ _ => .ok ⟨"https://api.gong.io"⟩)
    [WithModule ⟨"calls", "v2"⟩] [WithAuthenticatedClient ⟨7⟩]
    { APIModule := ⟨"calls", "v2"⟩ } (by decide)
  ⟨h.1 (fun _ => .panic (.error (.external "bad option"))) (.external "bad option") rfl,
    h.2.1 (fun _ => .panic (.value "index out of range")) "index out of range" rfl,
    h.2.2 (fun _ _ _ _ => .error (.external "oauth: no token")) ⟨0⟩ ⟨1⟩ ⟨2⟩ ⟨3⟩
      (.external "oauth: no token") rfl⟩

/-- C7: for every option sequence and every registry, whenever `NewConnector`
returns, the connector is non-nil if and only if the error is nil. -/
theorem NewConnector_exclusive (ReadInfo : Registry) (opts : List Option) (conn : Ptr Connector)
    (err : Ptr GoError) (h : (NewConnector ReadInfo opts).outcome = .returned conn err) :
    (conn ≠ none ↔ err = none) := by
  unfold NewConnector at h
  rcases hres : applyOptions {} 0 opts with ⟨a, n⟩
  rw [hres] at h
  cases a with
  | done r => exact construct_exclusive ReadInfo r conn err h
  | panic p =>
    cases p with
    | error e =>
      simp only [recoverDeferred] at h
      injection h with h1 h2
      subst h1 h2
      simp
    | value v => simp [recoverDeferred] at h

/-- Witness of `NewConnector_exclusive`: a failing registry gives an error and no
connector. -/
theorem NewConnector_exclusive_witness :
    (NewConnector (fun _ _ => .error (.external "provider not found"))
        [WithAuthenticatedClient ⟨7⟩]).outcome =
        .returned none (some (.external "provider not found")) ∧
      ((none : Ptr Connector) ≠ none ↔ (some (GoError.external "provider not found")) = none) :=
  ⟨by decide,
    NewConnector_exclusive (fun _ _ => .error (.external "provider not found"))
      [WithAuthenticatedClient ⟨7⟩] none (some (.external "provider not found")) (by decide)⟩


/-! The substitution map sent to the registry -/

/-- C9: every registry call made by `NewConnector` is made after all options were
applied without a panic, is the only one, names the Gong provider, and binds
the key `workspace` to the workspace name of the record the options produced,
whatever the substitutions held by that record. -/
theorem NewConnector_registry_call (ReadInfo : Registry) (opts : List Option) (call : ReadInfoCall)
    (hcall : call ∈ (NewConnector ReadInfo opts).calls) :
    ∃ r, (applyOptions {} 0 opts).1 = .done r ∧
      (NewConnector ReadInfo opts).calls = [call] ∧
      call.provider = providers.Gong ∧
      call.substitutions.lookup "workspace" = some r.Workspace.Name := by
  unfold NewConnector at hcall ⊢
  rcases hres : applyOptions {} 0 opts with ⟨a, n⟩
  rw [hres] at hcall
  cases a with
  | panic p => simp at hcall
  | done r =>
    refine ⟨r, rfl, ?_⟩
    simp only at hcall ⊢
    rcases construct_calls ReadInfo r with h | h
    · rw [h] at hcall
      simp at hcall
    · rw [h] at hcall ⊢
      simp only [List.mem_singleton] at hcall
      subst hcall
      simp [List.lookup]

/-- Witness of `NewConnector_registry_call`: the caller's substitutions bind
`workspace` to `acme`, the registry still receives the record's workspace
name, the empty string. -/
theorem NewConnector_registry_call_witness :
    ∃ r, (applyOptions {} 0
        [WithAuthenticatedClient ⟨7⟩, WithCatalogSubstitutions [("workspace", "acme")]]).1 =
          .done r ∧
      (NewConnector (fun _ _ => .ok ⟨"https://api.gong.io"⟩)
        [WithAuthenticatedClient ⟨7⟩, WithCatalogSubstitutions [("workspace", "acme")]]).calls =
          [⟨"gong", [("workspace", "")]⟩] ∧
      (⟨"gong", [("workspace", "")]⟩ : ReadInfoCall).provider = providers.Gong ∧
      (⟨"gong", [("workspace", "")]⟩ : ReadInfoCall).substitutions.lookup "workspace" =
        some r.Workspace.Name :=
  NewConnector_registry_call (fun _ _ => .ok ⟨"https://api.gong.io"⟩)
    [WithAuthenticatedClient ⟨7⟩, WithCatalogSubstitutions [("workspace", "acme")]]
    ⟨"gong", [("workspace", "")]⟩ (by decide)

/-! Options on the record -/

/-- C10: for `WithModule`, `WithAuthenticatedClient` and
`WithCatalogSubstitutions`, applying the option with `a` and then with `b` to
a record yields the record that applying it with `b` alone yields. -/
theorem field_option_last_write_wins (r : gongParams) :
    (∀ a b : APIModule,
        (applyOptions r 0 [WithModule a, WithModule b]).1 = (applyOptions r 0 [WithModule b]).1 ∧
        (applyOptions r 0 [WithModule b]).1 = .done { r with APIModule := b }) ∧
      (∀ a b : AuthenticatedHTTPClient,
        (applyOptions r 0 [WithAuthenticatedClient a, WithAuthenticatedClient b]).1 =
          (applyOptions r 0 [WithAuthenticatedClient b]).1 ∧
        (applyOptions r 0 [WithAuthenticatedClient b]).1 =
          .done { r with client := some { HTTPClient := some (.mk "" b .InterpretError) } }) ∧
      (∀ a b : GoMap,
        (applyOptions r 0 [WithCatalogSubstitutions a, WithCatalogSubstitutions b]).1 =
          (applyOptions r 0 [WithCatalogSubstitutions b]).1 ∧
        (applyOptions r 0 [WithCatalogSubstitutions b]).1 = .done { r with substitutions := b }) := by
  refine ⟨fun a b => ⟨rfl, rfl⟩, fun a b => ⟨rfl, rfl⟩, fun a b => ⟨rfl, rfl⟩⟩

/-! Sequences of constructor calls -/

/-- The record the loop reaches does not depend on the count it starts from. -/
theorem applyOptions_fst (opts : List Option) (params : gongParams) (n : Nat) :
    (applyOptions params n opts).1 = (applyOptions params 0 opts).1 := by
  induction opts generalizing params n with
  | nil => rfl
  | cons opt rest ih =>
    simp only [applyOptions]
    cases opt params with
    | done params' => simpa using (ih params' (n + 1)).trans (ih params' (0 + 1)).symm
    | panic p => rfl

/-- Appending one option: it is applied to the record the others reached. -/
theorem applyOptions_concat (opts : List Option) (opt : Option) (params : gongParams) :
    (applyOptions params 0 (opts ++ [opt])).1 =
      match (applyOptions params 0 opts).1 with
      | .done params' => opt params'
      | .panic p => .panic p := by
  rw [applyOptions_append]
  rcases hres : applyOptions params 0 opts with ⟨a, n⟩
  cases a with
  | done params' =>
    simp only [applyOptions]
    cases opt params' <;> rfl
  | panic p => rfl

/-- The last call for a field, after one more call. -/
theorem lastFor_concat (f : Field) (calls : List OptionCall) (call : OptionCall) :
    lastFor f (calls ++ [call]) = if call.field = f then some call else lastFor f calls := by
  unfold lastFor
  rw [List.reverse_append]
  simp only [List.reverse_cons, List.reverse_nil, List.nil_append, List.singleton_append,
    List.find?_cons]
  by_cases h : call.field = f <;> simp [h]

/-- A sequence of constructor calls that applies without a panic leaves the
record of its field-wise last calls. -/
theorem applyOptions_calls_done (NewOAuthHTTPClient : OAuthFactory) (calls : List OptionCall)
    (r r' : gongParams)
    (h : (applyOptions r 0 (calls.map (OptionCall.toOption NewOAuthHTTPClient))).1 = .done r') :
    r' = lastWrites NewOAuthHTTPClient r calls := by
  induction calls using List.reverseRecOn generalizing r' with
  | nil =>
    simp only [List.map_nil, applyOptions] at h
    injection h with h
    subst h
    rfl
  | append_singleton calls call ih =>
    rw [List.map_append, List.map_singleton, applyOptions_concat] at h
    cases hprev : (applyOptions r 0 (calls.map (OptionCall.toOption NewOAuthHTTPClient))).1 with
    | panic p =>
      rw [hprev] at h
      simp at h
    | done q =>
      rw [hprev] at h
      simp only at h
      have hq := ih q hprev
      cases call with
      | WithModule module =>
        simp only [OptionCall.toOption, WithModule] at h
        injection h with h
        subst h
        simp [lastWrites, lastClient, lastFor_concat, OptionCall.field, hq]
      | WithCatalogSubstitutions substitutions =>
        simp only [OptionCall.toOption, WithCatalogSubstitutions] at h
        injection h with h
        subst h
        simp [lastWrites, lastClient, lastFor_concat, OptionCall.field, hq]
      | WithAuthenticatedClient client =>
        simp only [OptionCall.toOption, WithAuthenticatedClient] at h
        injection h with h
        subst h
        simp [lastWrites, lastClient, lastFor_concat, OptionCall.field, hq]
      | WithClient ctx client config token =>
        simp only [OptionCall.toOption, WithClient] at h
        cases hF : NewOAuthHTTPClient ctx client config token with
        | error e =>
          rw [hF] at h
          simp at h
        | ok oauthclient =>
          rw [hF] at h
          simp only [WithAuthenticatedClient] at h
          injection h with h
          subst h
          simp [lastWrites, lastClient, lastFor_concat, OptionCall.field, hq, hF]

/-- A sequence of field-setting calls applies without a panic. -/
theorem applyOptions_setters_done (NewOAuthHTTPClient : OAuthFactory) (calls : List OptionCall)
    (r : gongParams) (hset : ∀ call ∈ calls, call.isFieldSetter = true) :
    ∃ r', (applyOptions r 0 (calls.map (OptionCall.toOption NewOAuthHTTPClient))).1 = .done r' := by
  induction calls generalizing r with
  | nil => exact ⟨r, rfl⟩
  | cons call rest ih =>
    have hrest : ∀ c ∈ rest, c.isFieldSetter = true := fun c hc => hset c (List.mem_cons_of_mem _ hc)
    have hcall := hset call (List.mem_cons_self _ _)
    simp only [List.map_cons, applyOptions]
    cases call with
    | WithClient ctx client config token => simp [OptionCall.isFieldSetter] at hcall
    | WithModule module =>
      simp only [OptionCall.toOption, WithModule]
      rw [applyOptions_fst]
      exact ih _ hrest
    | WithAuthenticatedClient client =>
      simp only [OptionCall.toOption, WithAuthenticatedClient]
      rw [applyOptions_fst]
      exact ih _ hrest
    | WithCatalogSubstitutions substitutions =>
      simp only [OptionCall.toOption, WithCatalogSubstitutions]
      rw [applyOptions_fst]
      exact ih _ hrest

/-- C11: called with no option, `NewConnector` returns `ErrMissingClient` and a
nil connector for every registry, and makes no registry call. -/
theorem NewConnector_no_options (ReadInfo : Registry) :
    NewConnector ReadInfo [] = ⟨.returned none (some .ErrMissingClient), 0, []⟩ ∧
      (NewConnector ReadInfo []).calls.length = 0 := by
  constructor <;> rfl

/-- C12: two constructor calls that target different fields yield the same
result in either order, from any record (for the three field setters the same
record; a failing `WithClient` panics alike in both orders). Hence a sequence
of calls of `WithModule`, `WithAuthenticatedClient` and
`WithCatalogSubstitutions` yields the record of its field-wise last calls, and
two such sequences with the same last call for each field yield the same
record. -/
theorem options_on_different_fields_commute (NewOAuthHTTPClient : OAuthFactory) (r : gongParams) :
    (∀ c₁ c₂ : OptionCall, c₁.field ≠ c₂.field →
        (applyOptions r 0 [c₁.toOption NewOAuthHTTPClient, c₂.toOption NewOAuthHTTPClient]).1 =
          (applyOptions r 0 [c₂.toOption NewOAuthHTTPClient, c₁.toOption NewOAuthHTTPClient]).1) ∧
      (∀ calls : List OptionCall, (∀ c ∈ calls, c.isFieldSetter = true) →
        (applyOptions r 0 (calls.map (OptionCall.toOption NewOAuthHTTPClient))).1 =
          .done (lastWrites NewOAuthHTTPClient r calls)) ∧
      (∀ calls₁ calls₂ : List OptionCall,
        (∀ c ∈ calls₁, c.isFieldSetter = true) → (∀ c ∈ calls₂, c.isFieldSetter = true) →
        (∀ f, lastFor f calls₁ = lastFor f calls₂) →
        (applyOptions r 0 (calls₁.map (OptionCall.toOption NewOAuthHTTPClient))).1 =
          (applyOptions r 0 (calls₂.map (OptionCall.toOption NewOAuthHTTPClient))).1) := by
  have hclosed : ∀ calls : List OptionCall, (∀ c ∈ calls, c.isFieldSetter = true) →
      (applyOptions r 0 (calls.map (OptionCall.toOption NewOAuthHTTPClient))).1 =
        .done (lastWrites NewOAuthHTTPClient r calls) := by
    intro calls hset
    obtain ⟨r', hr'⟩ := applyOptions_setters_done NewOAuthHTTPClient calls r hset
    rw [hr', applyOptions_calls_done NewOAuthHTTPClient calls r r' hr']
  refine ⟨?_, hclosed, ?_⟩
  · intro c₁ c₂ hne
    cases c₁ with
    | WithClient ctx client config token =>
      cases c₂ with
      | WithClient _ _ _ _ => exact absurd rfl hne
      | WithAuthenticatedClient _ => exact absurd rfl hne
      | WithModule module =>
        cases hF : NewOAuthHTTPClient ctx client config token <;>
          simp [applyOptions, OptionCall.toOption, WithClient, WithModule,
            WithAuthenticatedClient, hF]
      | WithCatalogSubstitutions substitutions =>
        cases hF : NewOAuthHTTPClient ctx client config token <;>
          simp [applyOptions, OptionCall.toOption, WithClient, WithCatalogSubstitutions,
            WithAuthenticatedClient, hF]
    | WithModule module =>
      cases c₂ with
      | WithClient ctx client config token =>
        cases hF : NewOAuthHTTPClient ctx client config token <;>
          simp [applyOptions, OptionCall.toOption, WithClient, WithModule,
            WithAuthenticatedClient, hF]
      | WithModule _ => exact absurd rfl hne
      | WithAuthenticatedClient _ => rfl
      | WithCatalogSubstitutions _ => rfl
    | WithAuthenticatedClient client =>
      cases c₂ with
      | WithClient _ _ _ _ => exact absurd rfl hne
      | WithAuthenticatedClient _ => exact absurd rfl hne
      | WithModule _ => rfl
      | WithCatalogSubstitutions _ => rfl
    | WithCatalogSubstitutions substitutions =>
      cases c₂ with
      | WithClient ctx client config token =>
        cases hF : NewOAuthHTTPClient ctx client config token <;>
          simp [applyOptions, OptionCall.toOption, WithClient, WithCatalogSubstitutions,
            WithAuthenticatedClient, hF]
      | WithModule _ => rfl
      | WithAuthenticatedClient _ => rfl
      | WithCatalogSubstitutions _ => exact absurd rfl hne
  · intro calls₁ calls₂ h₁ h₂ hlast
    rw [hclosed calls₁ h₁, hclosed calls₂ h₂]
    simp only [lastWrites, lastClient, hlast]

/-- Witness of `options_on_different_fields_commute`: a module and a client in
both orders, and two sequences whose last calls agree. -/
theorem options_on_different_fields_commute_witness :
    (applyOptions {} 0 [WithModule ⟨"calls", "v2"⟩, WithAuthenticatedClient ⟨7⟩]).1 =
        (applyOptions {} 0 [WithAuthenticatedClient ⟨7⟩, WithModule ⟨"calls", "v2"⟩]).1 ∧
      (applyOptions {} 0
          [WithModule ⟨"users", "v1"⟩, WithAuthenticatedClient ⟨7⟩, WithModule ⟨"calls", "v2"⟩]).1 =
        .done { client := some { HTTPClient := some (.mk "" ⟨7⟩ .InterpretError) },
                APIModule := ⟨"calls", "v2"⟩ } ∧
      (applyOptions {} 0
          [WithModule ⟨"users", "v1"⟩, WithAuthenticatedClient ⟨7⟩, WithModule ⟨"calls", "v2"⟩]).1 =
        (applyOptions {} 0 [WithModule ⟨"calls", "v2"⟩, WithAuthenticatedClient ⟨7⟩]).1 :=
  have h := options_on_different_fields_commute (fun _ _ _ _ => .error (.external "unused")) {}
  ⟨h.1 (.WithModule ⟨"calls", "v2"⟩) (.WithAuthenticatedClient ⟨7⟩) (by decide),
    h.2.1 [.WithModule ⟨"users", "v1"⟩, .WithAuthenticatedClient ⟨7⟩, .WithModule ⟨"calls", "v2"⟩]
      (by decide),
    h.2.2 [.WithModule ⟨"users", "v1"⟩, .WithAuthenticatedClient ⟨7⟩, .WithModule ⟨"calls", "v2"⟩]
      [.WithModule ⟨"calls", "v2"⟩, .WithAuthenticatedClient ⟨7⟩] (by decide) (by decide)
      (by intro f; cases f <;> decide)⟩

/-! The address-level code denotes the value-level code -/

/-- One constructor call: what it does to the state in place is what its
value-level option does to the record the state denotes. -/
theorem mem_ofCall_value (NewOAuthHTTPClient : OAuthFactory) (call : OptionCall) (s : mem.State) :
    call.toOption NewOAuthHTTPClient s.value =
      match mem.ofCall NewOAuthHTTPClient call s with
      | (s', none) => .done s'.value
      | (_, some p) => .panic p := by
  cases call with
  | WithModule module => rfl
  | WithCatalogSubstitutions substitutions => rfl
  | WithAuthenticatedClient client =>
    simp [OptionCall.toOption, mem.ofCall, mem.WithAuthenticatedClient, WithAuthenticatedClient,
      mem.State.value, mem.Heap.load, mem.Heap.newHTTPClient, mem.Heap.newJSONHTTPClient]
  | WithClient ctx client config token =>
    simp only [OptionCall.toOption, mem.ofCall, mem.WithClient, WithClient]
    cases NewOAuthHTTPClient ctx client config token with
    | error e => rfl
    | ok oauthclient =>
      simp [mem.WithAuthenticatedClient, WithAuthenticatedClient,
        mem.State.value, mem.Heap.load, mem.Heap.newHTTPClient, mem.Heap.newJSONHTTPClient]

/-- Every constructor call denotes, in place, its value-level option. -/
theorem mem_ofCall_denotes (NewOAuthHTTPClient : OAuthFactory) (calls : List OptionCall) :
    List.Forall₂ mem.Denotes (calls.map (mem.ofCall NewOAuthHTTPClient))
      (calls.map (OptionCall.toOption NewOAuthHTTPClient)) := by
  induction calls with
  | nil => exact List.Forall₂.nil
  | cons call rest ih =>
    exact List.Forall₂.cons (fun s => mem_ofCall_value NewOAuthHTTPClient call s) ih

/-- The option loop, in place and on values. -/
theorem mem_applyOptions_value (ms : List mem.Option) (os : List Option)
    (hden : List.Forall₂ mem.Denotes ms os) (s : mem.State) (n : Nat) :
    applyOptions s.value n os =
      match mem.applyOptions s n ms with
      | (s', none, m) => (.done s'.value, m)
      | (_, some p, m) => (.panic p, m) := by
  induction hden generalizing s n with
  | nil => rfl
  | @cons m o ms' os' hmo _ ih =>
    simp only [applyOptions, mem.applyOptions]
    rw [hmo s]
    rcases hstep : m s with ⟨s', p⟩
    cases p with
    | none => exact ih s' (n + 1)
    | some p => rfl

/-- The body after the loop, in place and on values. -/
theorem mem_construct_value (ReadInfo : Registry) (s : mem.State) :
    construct ReadInfo s.value =
      ((mem.construct ReadInfo s).1.value (mem.construct ReadInfo s).2.2,
        (mem.construct ReadInfo s).2.1) := by
  rcases s with ⟨h, p⟩
  unfold construct mem.construct gongParams.prepare mem.gongParams.prepare
  cases hc : p.client with
  | none => simp [mem.State.value, mem.Heap.load, hc, mem.Outcome.value]
  | some a =>
    simp only [mem.State.value, mem.Heap.load, hc]
    cases ReadInfo providers.Gong [("workspace", p.Workspace.Name)] with
    | error e => simp [mem.Outcome.value]
    | ok info =>
      simp only [setBase, mem.setBase, hc]
      cases hj : h.json a with
      | none => simp [mem.Outcome.value]
      | some b => simp [mem.Outcome.value, mem.Heap.load, hj, hc]

/-- The deferred function commutes with reading an outcome in a heap. -/
theorem mem_recoverDeferred_value (h : mem.Heap) (out : mem.Outcome) :
    (mem.recoverDeferred out).value h = recoverDeferred (out.value h) := by
  cases out with
  | returned conn outErr => cases conn <;> rfl
  | panicked p => cases p <;> rfl

/-- Refinement: on any heap, `NewConnector` on addresses denotes `NewConnector`
on values, for every sequence of options that denote value-level options. -/
theorem mem_NewConnector_value (ReadInfo : Registry) (ms : List mem.Option) (os : List Option)
    (hden : List.Forall₂ mem.Denotes ms os) (h : mem.Heap) :
    (mem.NewConnector ReadInfo ms h).value = NewConnector ReadInfo os := by
  have hloop := mem_applyOptions_value ms os hden ⟨h, {}⟩ 0
  have hzero : (⟨h, {}⟩ : mem.State).value = {} := rfl
  rw [hzero] at hloop
  unfold NewConnector mem.NewConnector
  rw [hloop]
  rcases mem.applyOptions ⟨h, {}⟩ 0 ms with ⟨s, p, n⟩
  cases p with
  | some p => cases p <;> rfl
  | none =>
    simp only [mem_construct_value, mem.Run.value, mem_recoverDeferred_value]

/-! Repeated construction -/

/-- C13: let the options act on the values the record holds, as the options
built by the package's constructors do for every OAuth factory. Then for every
registry the run of `NewConnector` read in the heap it leaves (the error
returned, or the connector with the content of its client and so its resolved
base URL, the options invoked and the registry calls made) is the same when
`NewConnector` is called again on the heap left by the first call, and the
same from any other heap: nothing a call leaves behind is read by the next
one. -/
theorem NewConnector_deterministic (ReadInfo : Registry) (h : mem.Heap) :
    (∀ (ms : List mem.Option) (os : List Option), List.Forall₂ mem.Denotes ms os →
        (mem.NewConnector ReadInfo ms (mem.NewConnector ReadInfo ms h).heap).value =
          (mem.NewConnector ReadInfo ms h).value ∧
        (∀ h' : mem.Heap,
          (mem.NewConnector ReadInfo ms h').value = (mem.NewConnector ReadInfo ms h).value) ∧
        (mem.NewConnector ReadInfo ms h).value = NewConnector ReadInfo os) ∧
      (∀ (NewOAuthHTTPClient : OAuthFactory) (calls : List OptionCall),
        (mem.NewConnector ReadInfo (calls.map (mem.ofCall NewOAuthHTTPClient))
          (mem.NewConnector ReadInfo (calls.map (mem.ofCall NewOAuthHTTPClient)) h).heap).value =
          (mem.NewConnector ReadInfo (calls.map (mem.ofCall NewOAuthHTTPClient)) h).value ∧
        (∀ h' : mem.Heap,
          (mem.NewConnector ReadInfo (calls.map (mem.ofCall NewOAuthHTTPClient)) h').value =
            (mem.NewConnector ReadInfo (calls.map (mem.ofCall NewOAuthHTTPClient)) h).value)) := by
  have key : ∀ (ms : List mem.Option) (os : List Option), List.Forall₂ mem.Denotes ms os →
      (mem.NewConnector ReadInfo ms (mem.NewConnector ReadInfo ms h).heap).value =
        (mem.NewConnector ReadInfo ms h).value ∧
      (∀ h' : mem.Heap,
        (mem.NewConnector ReadInfo ms h').value = (mem.NewConnector ReadInfo ms h).value) ∧
      (mem.NewConnector ReadInfo ms h).value = NewConnector ReadInfo os := by
    intro ms os hden
    refine ⟨?_, fun h' => ?_, mem_NewConnector_value ReadInfo ms os hden h⟩
    · rw [mem_NewConnector_value ReadInfo ms os hden, mem_NewConnector_value ReadInfo ms os hden]
    · rw [mem_NewConnector_value ReadInfo ms os hden, mem_NewConnector_value ReadInfo ms os hden]
  refine ⟨key, fun F calls => ?_⟩
  have hk := key _ _ (mem_ofCall_denotes F calls)
  exact ⟨hk.1, hk.2.1⟩

/-- Witness of `NewConnector_deterministic`: a client set through `WithClient`
and a module, constructed twice in a row from the empty heap; the two
connectors sit at different addresses and read the same. -/
theorem NewConnector_deterministic_witness :
    (mem.NewConnector (fun _ _ => .ok ⟨"https://api.gong.io"⟩)
        [mem.WithClient (fun _ _ _ token => .ok ⟨token.handle + 10⟩) ⟨0⟩ ⟨1⟩ ⟨2⟩ ⟨3⟩,
          mem.WithModule ⟨"calls", "v2"⟩] mem.Heap.empty).outcome =
        .returned (some { BaseURL := "", Client := some 0 }) none ∧
      (mem.NewConnector (fun _ _ => .ok ⟨"https://api.gong.io"⟩)
        [mem.WithClient (fun _ _ _ token => .ok ⟨token.handle + 10⟩) ⟨0⟩ ⟨1⟩ ⟨2⟩ ⟨3⟩,
          mem.WithModule ⟨"calls", "v2"⟩]
        (mem.NewConnector (fun _ _ => .ok ⟨"https://api.gong.io"⟩)
          [mem.WithClient (fun _ _ _ token => .ok ⟨token.handle + 10⟩) ⟨0⟩ ⟨1⟩ ⟨2⟩ ⟨3⟩,
            mem.WithModule ⟨"calls", "v2"⟩] mem.Heap.empty).heap).outcome =
        .returned (some { BaseURL := "", Client := some 1 }) none ∧
      (mem.NewConnector (fun _ _ => .ok ⟨"https://api.gong.io"⟩)
        [mem.WithClient (fun _ _ _ token => .ok ⟨token.handle + 10⟩) ⟨0⟩ ⟨1⟩ ⟨2⟩ ⟨3⟩,
          mem.WithModule ⟨"calls", "v2"⟩]
        (mem.NewConnector (fun _ _ => .ok ⟨"https://api.gong.io"⟩)
          [mem.WithClient (fun _ _ _ token => .ok ⟨token.handle + 10⟩) ⟨0⟩ ⟨1⟩ ⟨2⟩ ⟨3⟩,
            mem.WithModule ⟨"calls", "v2"⟩] mem.Heap.empty).heap).value =
        (mem.NewConnector (fun _ _ => .ok ⟨"https://api.gong.io"⟩)
          [mem.WithClient (fun _ _ _ token => .ok ⟨token.handle + 10⟩) ⟨0⟩ ⟨1⟩ ⟨2⟩ ⟨3⟩,
            mem.WithModule ⟨"calls", "v2"⟩] mem.Heap.empty).value :=
  ⟨by decide, by decide,
    ((NewConnector_deterministic (fun _ _ => .ok ⟨"https://api.gong.io"⟩) mem.Heap.empty).1
      [mem.WithClient (fun _ _ _ token => .ok ⟨token.handle + 10⟩) ⟨0⟩ ⟨1⟩ ⟨2⟩ ⟨3⟩,
        mem.WithModule ⟨"calls", "v2"⟩]
      [WithClient (fun _ _ _ token => .ok ⟨token.handle + 10⟩) ⟨0⟩ ⟨1⟩ ⟨2⟩ ⟨3⟩,
        WithModule ⟨"calls", "v2"⟩]
      (mem_ofCall_denotes (fun _ _ _ token => .ok ⟨token.handle + 10⟩)
        [.WithClient ⟨0⟩ ⟨1⟩ ⟨2⟩ ⟨3⟩, .WithModule ⟨"calls", "v2"⟩])).1⟩

/-! The connector's transport -/

/-- C14: for every sequence of constructor calls that applies without a panic and
whose last call targeting the client supplies the authenticated client `c`,
and every registry that resolves to base URL `u`, `NewConnector` returns a
connector whose client wraps `c` with the standard error interpreter and has
`u` as its base URL. -/
theorem NewConnector_wraps_last_client (ReadInfo : Registry) (NewOAuthHTTPClient : OAuthFactory)
    (calls : List OptionCall) (r : gongParams) (c : AuthenticatedHTTPClient) (u : String)
    (happ : (applyOptions {} 0 (calls.map (OptionCall.toOption NewOAuthHTTPClient))).1 = .done r)
    (hlast : lastClient NewOAuthHTTPClient calls = some c)
    (hreg : ReadInfo providers.Gong [("workspace", r.Workspace.Name)] = .ok ⟨u⟩) :
    (NewConnector ReadInfo (calls.map (OptionCall.toOption NewOAuthHTTPClient))).outcome =
      .returned (some { BaseURL := "",
                        Client := some { HTTPClient := some (.mk u c .InterpretError) } })
        none := by
  have hr := applyOptions_calls_done NewOAuthHTTPClient calls {} r happ
  have hclient : r.client =
      some { HTTPClient := some { Client := c, ErrorHandler := .InterpretError } } := by
    rw [hr]
    simp [lastWrites, hlast]
  rw [NewConnector_of_done ReadInfo _ r happ,
    construct_of_client ReadInfo r _ _ hclient rfl, hreg]
  rfl

/-- Witness of `NewConnector_wraps_last_client`: the client is set twice, the
second time through a succeeding `WithClient`. -/
theorem NewConnector_wraps_last_client_witness :
    (NewConnector (fun _ _ => .ok ⟨"https://api.gong.io"⟩)
        ([OptionCall.WithAuthenticatedClient ⟨7⟩, .WithClient ⟨0⟩ ⟨1⟩ ⟨2⟩ ⟨3⟩,
            .WithModule ⟨"calls", "v2"⟩].map
          (OptionCall.toOption (fun _ _ _ token => .ok ⟨token.handle + 10⟩)))).outcome =
      .returned (some { BaseURL := "",
                        Client := some { HTTPClient := some (.mk "https://api.gong.io" ⟨13⟩ .InterpretError) } })
        none :=
  NewConnector_wraps_last_client (fun _ _ => .ok ⟨"https://api.gong.io"⟩)
    (fun _ _ _ token => .ok ⟨token.handle + 10⟩)
    [.WithAuthenticatedClient ⟨7⟩, .WithClient ⟨0⟩ ⟨1⟩ ⟨2⟩ ⟨3⟩, .WithModule ⟨"calls", "v2"⟩]
    { client := some { HTTPClient := some { Client := ⟨13⟩, ErrorHandler := .InterpretError } },
      APIModule := ⟨"calls", "v2"⟩ }
    ⟨13⟩ "https://api.gong.io" (by decide) (by decide) rfl

/-- C15: when the OAuth factory succeeds with the authenticated client `c`,
`WithClient` does to any record, and in place to any state, exactly what
`WithAuthenticatedClient c` does; when the factory fails with `e`, the option
panics with `e` and the state, record and heap, is left as it was. -/
theorem WithClient_delegates (NewOAuthHTTPClient : OAuthFactory) (ctx : Context)
    (client : HttpClient) (config : OAuthConfig) (token : OAuthToken) :
    (∀ c, NewOAuthHTTPClient ctx client config token = .ok c →
        (∀ r, WithClient NewOAuthHTTPClient ctx client config token r =
          WithAuthenticatedClient c r) ∧
        (∀ s, mem.WithClient NewOAuthHTTPClient ctx client config token s =
          mem.WithAuthenticatedClient c s)) ∧
      (∀ e, NewOAuthHTTPClient ctx client config token = .error e →
        (∀ r, WithClient NewOAuthHTTPClient ctx client config token r = .panic (.error e)) ∧
        (∀ s, mem.WithClient NewOAuthHTTPClient ctx client config token s =
          (s, some (.error e)))) := by
  constructor
  · intro c hF
    constructor
    · intro r
      simp only [WithClient, hF]
    · intro s
      simp only [mem.WithClient, hF]
  · intro e hF
    constructor
    · intro r
      simp only [WithClient, hF]
    · intro s
      simp only [mem.WithClient, hF]

/-- Witness of `WithClient_delegates`: a factory that succeeds exactly when the
token handle is not zero. -/
theorem WithClient_delegates_witness :
    WithClient (fun _ _ _ token => if token.handle = 0 then .error (.external "no token")
        else .ok ⟨token.handle⟩) ⟨0⟩ ⟨1⟩ ⟨2⟩ ⟨3⟩ { APIModule := ⟨"calls", "v2"⟩ } =
        WithAuthenticatedClient ⟨3⟩ { APIModule := ⟨"calls", "v2"⟩ } ∧
      WithClient (fun _ _ _ token => if token.handle = 0 then .error (.external "no token")
        else .ok ⟨token.handle⟩) ⟨0⟩ ⟨1⟩ ⟨2⟩ ⟨0⟩ { APIModule := ⟨"calls", "v2"⟩ } =
        .panic (.error (.external "no token")) :=
  ⟨((WithClient_delegates (fun _ _ _ token => if token.handle = 0 then
        .error (.external "no token") else .ok ⟨token.handle⟩) ⟨0⟩ ⟨1⟩ ⟨2⟩ ⟨3⟩).1 ⟨3⟩ rfl).1
      { APIModule := ⟨"calls", "v2"⟩ },
    ((WithClient_delegates (fun _ _ _ token => if token.handle = 0 then
        .error (.external "no token") else .ok ⟨token.handle⟩) ⟨0⟩ ⟨1⟩ ⟨2⟩ ⟨0⟩).2
      (.external "no token") rfl).1 { APIModule := ⟨"calls", "v2"⟩ }⟩

/-! Validation -/

/-- The aggregate of `errors.Join` is nil exactly when every error is nil. -/
theorem errorsJoin_eq_none (errs : List (Ptr GoError)) :
    errorsJoin errs = none ↔ ∀ e ∈ errs, e = none := by
  unfold errorsJoin
  constructor
  · intro h e he
    cases e with
    | none => rfl
    | some x =>
      have hmem : x ∈ errs.filterMap id := List.mem_filterMap.mpr ⟨some x, he, rfl⟩
      cases hf : errs.filterMap id with
      | nil => rw [hf] at hmem; cases hmem
      | cons y ys => rw [hf] at h; simp at h
  · intro h
    have hnil : errs.filterMap id = [] := by
      apply List.eq_nil_iff_forall_not_mem.mpr
      intro x hx
      obtain ⟨e, he, hex⟩ := List.mem_filterMap.mp hx
      rw [h e he] at hex
      cases hex
    rw [hnil]

/-- C16: `gongParams.ValidateParams` returns a non-nil error exactly when the
workspace name is empty, the aggregate of `errors.Join` being nil exactly when
every rule passes; its result does not depend on the client; and
`FromOptions`, when no option panics, returns the record obtained by applying
the options in order together with an error that is non-nil exactly when that
record's workspace name is empty. -/
theorem ValidateParams_iff_workspace_empty :
    (∀ r : gongParams, r.ValidateParams ≠ none ↔ r.Workspace.Name = "") ∧
      (∀ errs : List (Ptr GoError), errorsJoin errs = none ↔ ∀ e ∈ errs, e = none) ∧
      (∀ (r : gongParams) (client : Ptr JSONHTTPClient),
        ({ r with client := client } : gongParams).ValidateParams = r.ValidateParams) ∧
      (∀ (p : gongParams) (opts : List Option) (r' : gongParams),
        (applyOptions p 0 opts).1 = .done r' →
        ∃ err, p.FromOptions opts = .ok (r', err) ∧ (err ≠ none ↔ r'.Workspace.Name = "")) := by
  have hval : ∀ r : gongParams, r.ValidateParams ≠ none ↔ r.Workspace.Name = "" := by
    intro r
    unfold gongParams.ValidateParams
    rw [Ne, errorsJoin_eq_none]
    simp only [List.mem_singleton, forall_eq, Workspace.ValidateParams]
    by_cases h : r.Workspace.Name = "" <;> simp [h]
  refine ⟨hval, errorsJoin_eq_none, fun r client => rfl, ?_⟩
  intro p opts r' happ
  refine ⟨r'.ValidateParams, ?_, hval r'⟩
  simp only [gongParams.FromOptions, happ]

/-- Witness of `ValidateParams_iff_workspace_empty`: from the zero record, two
options apply and validation reports the empty workspace. -/
theorem ValidateParams_iff_workspace_empty_witness :
    ∃ err, ({} : gongParams).FromOptions [WithAuthenticatedClient ⟨7⟩, WithModule ⟨"calls", "v2"⟩] =
        .ok ({ client := some { HTTPClient := some (.mk "" ⟨7⟩ .InterpretError) },
               APIModule := ⟨"calls", "v2"⟩ }, err) ∧
      (err ≠ none ↔
        ({ client := some { HTTPClient := some (.mk "" ⟨7⟩ .InterpretError) },
           APIModule := ⟨"calls", "v2"⟩ } : gongParams).Workspace.Name = "") :=
  ValidateParams_iff_workspace_empty.2.2.2 {}
    [WithAuthenticatedClient ⟨7⟩, WithModule ⟨"calls", "v2"⟩]
    { client := some { HTTPClient := some (.mk "" ⟨7⟩ .InterpretError) },
      APIModule := ⟨"calls", "v2"⟩ }
    (by decide)

/-! The workspace -/

/-- The registry calls of `NewConnector`: none, or the single call for the
record the options produced. -/
theorem NewConnector_calls_cases (ReadInfo : Registry) (opts : List Option) :
    (NewConnector ReadInfo opts).calls = [] ∨
      ∃ r, (applyOptions {} 0 opts).1 = .done r ∧
        (NewConnector ReadInfo opts).calls =
          [⟨providers.Gong, [("workspace", r.Workspace.Name)]⟩] := by
  unfold NewConnector
  rcases hres : applyOptions {} 0 opts with ⟨a, n⟩
  cases a with
  | panic p => exact Or.inl rfl
  | done r =>
    rcases construct_calls ReadInfo r with h | h
    · exact Or.inl h
    · exact Or.inr ⟨r, rfl, h⟩

/-- C17: for every sequence of calls of the package's option constructors, the
record `NewConnector` builds has the empty workspace name, and every registry
call `NewConnector` makes is the call for Gong with `workspace` bound to the
empty string. -/
theorem NewConnector_workspace_always_empty (NewOAuthHTTPClient : OAuthFactory)
    (calls : List OptionCall) :
    (∀ r, (applyOptions {} 0 (calls.map (OptionCall.toOption NewOAuthHTTPClient))).1 = .done r →
        r.Workspace.Name = "") ∧
      (∀ (ReadInfo : Registry) (call : ReadInfoCall),
        call ∈ (NewConnector ReadInfo
          (calls.map (OptionCall.toOption NewOAuthHTTPClient))).calls →
        call = ⟨providers.Gong, [("workspace", "")]⟩) := by
  have hws : ∀ r,
      (applyOptions {} 0 (calls.map (OptionCall.toOption NewOAuthHTTPClient))).1 = .done r →
      r.Workspace.Name = "" := by
    intro r happ
    rw [applyOptions_calls_done NewOAuthHTTPClient calls {} r happ]
    rfl
  refine ⟨hws, ?_⟩
  intro ReadInfo call hcall
  rcases NewConnector_calls_cases ReadInfo
      (calls.map (OptionCall.toOption NewOAuthHTTPClient)) with h | ⟨r, happ, h⟩
  · rw [h] at hcall
    cases hcall
  · rw [h, hws r happ] at hcall
    simpa using hcall

/-- Witness of `NewConnector_workspace_always_empty`: all four constructors are
used, the substitutions even bind `workspace`, and the registry receives the
empty workspace. -/
theorem NewConnector_workspace_always_empty_witness :
    ({ client := some { HTTPClient := some (.mk "" ⟨13⟩ .InterpretError) },
       APIModule := ⟨"calls", "v2"⟩,
       substitutions := [("workspace", "acme")] } : gongParams).Workspace.Name = "" ∧
      (⟨"gong", [("workspace", "")]⟩ : ReadInfoCall) = ⟨providers.Gong, [("workspace", "")]⟩ :=
  have h := NewConnector_workspace_always_empty (fun _ _ _ token => .ok ⟨token.handle + 10⟩)
    [.WithAuthenticatedClient ⟨7⟩, .WithModule ⟨"calls", "v2"⟩,
      .WithCatalogSubstitutions [("workspace", "acme")], .WithClient ⟨0⟩ ⟨1⟩ ⟨2⟩ ⟨3⟩]
  ⟨h.1 _ (by decide), h.2 (fun _ _ => .ok ⟨"https://api.gong.io"⟩) _ (by decide)⟩

/-! The frame of each option -/

/-- C18: on every record, `WithModule` assigns the API module,
`WithCatalogSubstitutions` the substitutions and `WithAuthenticatedClient` the
client, which becomes a client wrapping the given one with the standard error
interpreter and an unset base URL; every other field, the workspace included,
keeps its value. In place, the two setters leave the heap as it is, and
`WithAuthenticatedClient` makes the client point to two newly allocated
objects, every object allocated before keeping its content. -/
theorem option_changes_only_its_field (r : gongParams) (s : mem.State) :
    (∀ module, WithModule module r =
        .done { client := r.client, Workspace := r.Workspace, APIModule := module,
                substitutions := r.substitutions }) ∧
      (∀ substitutions, WithCatalogSubstitutions substitutions r =
        .done { client := r.client, Workspace := r.Workspace, APIModule := r.APIModule,
                substitutions := substitutions }) ∧
      (∀ client, WithAuthenticatedClient client r =
        .done { client := some { HTTPClient := some (.mk "" client .InterpretError) },
                Workspace := r.Workspace, APIModule := r.APIModule,
                substitutions := r.substitutions }) ∧
      (∀ module, mem.WithModule module s =
        ({ heap := s.heap,
           params := { client := s.params.client, Workspace := s.params.Workspace,
                       APIModule := module, substitutions := s.params.substitutions } }, none)) ∧
      (∀ substitutions, mem.WithCatalogSubstitutions substitutions s =
        ({ heap := s.heap,
           params := { client := s.params.client, Workspace := s.params.Workspace,
                       APIModule := s.params.APIModule, substitutions := substitutions } },
          none)) ∧
      (∀ client,
        (mem.WithAuthenticatedClient client s).2 = none ∧
        (mem.WithAuthenticatedClient client s).1.params =
          { client := some s.heap.jsonNext, Workspace := s.params.Workspace,
            APIModule := s.params.APIModule, substitutions := s.params.substitutions } ∧
        (mem.WithAuthenticatedClient client s).1.heap.json s.heap.jsonNext =
          some s.heap.httpNext ∧
        (mem.WithAuthenticatedClient client s).1.heap.http s.heap.httpNext =
          .mk "" client .InterpretError ∧
        (mem.WithAuthenticatedClient client s).1.heap.jsonNext = s.heap.jsonNext + 1 ∧
        (mem.WithAuthenticatedClient client s).1.heap.httpNext = s.heap.httpNext + 1 ∧
        (∀ a, a ≠ s.heap.jsonNext →
          (mem.WithAuthenticatedClient client s).1.heap.json a = s.heap.json a) ∧
        (∀ b, b ≠ s.heap.httpNext →
          (mem.WithAuthenticatedClient client s).1.heap.http b = s.heap.http b)) := by
  refine ⟨fun _ => rfl, fun _ => rfl, fun _ => rfl, fun _ => rfl, fun _ => rfl, fun client => ?_⟩
  refine ⟨rfl, rfl, ?_, ?_, rfl, rfl, ?_, ?_⟩
  · simp [mem.WithAuthenticatedClient, mem.Heap.newHTTPClient, mem.Heap.newJSONHTTPClient]
  · simp [mem.WithAuthenticatedClient, mem.Heap.newHTTPClient, mem.Heap.newJSONHTTPClient]
  · intro a ha
    simp [mem.WithAuthenticatedClient, mem.Heap.newHTTPClient, mem.Heap.newJSONHTTPClient,
      Function.update_noteq ha]
  · intro b hb
    simp [mem.WithAuthenticatedClient, mem.Heap.newHTTPClient, mem.Heap.newJSONHTTPClient,
      Function.update_noteq hb]

/-- Witness of `option_changes_only_its_field`: on a state whose heap already
holds one client, `WithAuthenticatedClient` allocates the next addresses and
leaves the object at address `0` as it was. -/
theorem option_changes_only_its_field_witness :
    (mem.WithAuthenticatedClient ⟨9⟩
        (mem.WithAuthenticatedClient ⟨7⟩ ⟨mem.Heap.empty, {}⟩).1).1.params.client = some 1 ∧
      (mem.WithAuthenticatedClient ⟨9⟩
        (mem.WithAuthenticatedClient ⟨7⟩ ⟨mem.Heap.empty, {}⟩).1).1.heap.http 0 =
        (mem.WithAuthenticatedClient ⟨7⟩ ⟨mem.Heap.empty, {}⟩).1.heap.http 0 ∧
      (mem.WithAuthenticatedClient ⟨7⟩ ⟨mem.Heap.empty, {}⟩).1.heap.http 0 =
        .mk "" ⟨7⟩ .InterpretError :=
  have h := (option_changes_only_its_field {}
    (mem.WithAuthenticatedClient ⟨7⟩ ⟨mem.Heap.empty, {}⟩).1).2.2.2.2.2 ⟨9⟩
  ⟨by rw [h.2.1]; rfl, h.2.2.2.2.2.2.2 0 (by decide), by decide⟩

/-! The method `FromOptions` -/

/-- The loop of `FromOptions` on the record at an address is the option loop on
that record: the heap and the record at that address are what the loop leaves,
every other record is untouched. -/
theorem mem_applyOptionsAt (opts : List mem.Option) (st : mem.Store) (a n : Nat) :
    mem.applyOptionsAt st a opts =
      ({ st with heap := (mem.applyOptions ⟨st.heap, st.records a⟩ n opts).1.heap
                 records := Function.update st.records a
                   (mem.applyOptions ⟨st.heap, st.records a⟩ n opts).1.params },
        (mem.applyOptions ⟨st.heap, st.records a⟩ n opts).2.1) := by
  induction opts generalizing st n with
  | nil => simp [mem.applyOptionsAt, mem.applyOptions]
  | cons opt rest ih =>
    simp only [mem.applyOptionsAt, mem.applyOptions, mem.callOption]
    rcases hstep : opt ⟨st.heap, st.records a⟩ with ⟨s', p⟩
    cases p with
    | some pl => rfl
    | none =>
      simp only
      rw [ih _ (n + 1)]
      simp

/-- The address-level `FromOptions` denotes the value-level one: for options
that denote value-level options, the record behind the returned pointer reads
as the record the value-level method returns, with the same error, and a panic
carries the same payload. -/
theorem mem_FromOptions_value (ms : List mem.Option) (os : List Option)
    (hden : List.Forall₂ mem.Denotes ms os) (st : mem.Store) (receiver : Nat) :
    gongParams.FromOptions (mem.State.value ⟨st.heap, st.records receiver⟩) os =
      match (mem.FromOptions st receiver ms).panicked with
      | some pl => .error pl
      | none =>
        .ok (mem.State.value ⟨(mem.FromOptions st receiver ms).store.heap,
              (mem.FromOptions st receiver ms).store.records st.recordsNext⟩,
            (mem.FromOptions st receiver ms).err) := by
  have hloop := mem_applyOptions_value ms os hden ⟨st.heap, st.records receiver⟩ 0
  simp only [gongParams.FromOptions, hloop, mem.FromOptions]
  rw [mem_applyOptionsAt ms _ st.recordsNext 0]
  simp only [Function.update_same]
  rcases mem.applyOptions ⟨st.heap, st.records receiver⟩ 0 ms with ⟨s', pl, n⟩
  cases pl with
  | some pl => rfl
  | none => simp [mem.State.value, gongParams.ValidateParams, mem.gongParams.ValidateParams]

/-- C19: `FromOptions` works on a copy of its receiver. On values, when no option
panics it returns the record the options leave from the receiver's values,
together with the validation error of that record, and the record is returned
also when that error is non-nil, as it is whenever the workspace name is
empty; a panic of an option leaves `FromOptions` with the same payload. On
addresses, with the receiver a record allocated in the store: after the call
the receiver holds the fields it held before, as does every other record
allocated before; the pointer returned is non-nil, is a new address, different
from the receiver's, and the record behind it is the one the options leave
when run in order on a copy of the receiver, returned with its validation
error whatever that error is. -/
theorem FromOptions_on_copy (p : gongParams) (opts : List Option) (st : mem.Store)
    (receiver : Nat) (ms : List mem.Option) (hrec : receiver < st.recordsNext) :
    (∀ r', (applyOptions p 0 opts).1 = .done r' →
        p.FromOptions opts = .ok (r', r'.ValidateParams) ∧
        (r'.Workspace.Name = "" → ∃ e, p.FromOptions opts = .ok (r', some e))) ∧
      (∀ pl, (applyOptions p 0 opts).1 = .panic pl → p.FromOptions opts = .error pl) ∧
      (mem.FromOptions st receiver ms).store.records receiver = st.records receiver ∧
      (∀ a, a < st.recordsNext →
        (mem.FromOptions st receiver ms).store.records a = st.records a) ∧
      (∀ s' n, mem.applyOptions ⟨st.heap, st.records receiver⟩ 0 ms = (s', none, n) →
        (mem.FromOptions st receiver ms).panicked = none ∧
        (mem.FromOptions st receiver ms).params = some st.recordsNext ∧
        st.recordsNext ≠ receiver ∧
        (mem.FromOptions st receiver ms).store.records st.recordsNext = s'.params ∧
        (mem.FromOptions st receiver ms).store.heap = s'.heap ∧
        (mem.FromOptions st receiver ms).err = s'.params.ValidateParams) ∧
      (∀ s' pl n, mem.applyOptions ⟨st.heap, st.records receiver⟩ 0 ms = (s', some pl, n) →
        (mem.FromOptions st receiver ms).panicked = some pl ∧
        (mem.FromOptions st receiver ms).params = none) := by
  have hframe : ∀ a, a < st.recordsNext →
      (mem.FromOptions st receiver ms).store.records a = st.records a := by
    intro a ha
    have hne : a ≠ st.recordsNext := Nat.ne_of_lt ha
    simp only [mem.FromOptions]
    rw [mem_applyOptionsAt ms _ st.recordsNext 0]
    simp only [Function.update_same]
    rcases mem.applyOptions ⟨st.heap, st.records receiver⟩ 0 ms with ⟨s', pl, n⟩
    cases pl <;> simp [Function.update_noteq hne]
  refine ⟨?_, ?_, hframe receiver hrec, hframe, ?_, ?_⟩
  · intro r' happ
    have hfrom : p.FromOptions opts = .ok (r', r'.ValidateParams) := by
      simp only [gongParams.FromOptions, happ]
    refine ⟨hfrom, fun hws => ?_⟩
    cases hval : r'.ValidateParams with
    | some e => exact ⟨e, by rw [hfrom, hval]⟩
    | none =>
      exfalso
      have hall := (errorsJoin_eq_none [r'.Workspace.ValidateParams]).mp hval
        r'.Workspace.ValidateParams (List.mem_singleton.mpr rfl)
      simp [Workspace.ValidateParams, hws] at hall
  · intro pl happ
    simp only [gongParams.FromOptions, happ]
  · intro s' n hloop
    simp only [mem.FromOptions]
    rw [mem_applyOptionsAt ms _ st.recordsNext 0]
    have hne : st.recordsNext ≠ receiver := fun h => absurd (h ▸ hrec) (Nat.lt_irrefl _)
    simp [hloop, hne]
  · intro s' pl n hloop
    simp only [mem.FromOptions]
    rw [mem_applyOptionsAt ms _ st.recordsNext 0]
    simp [hloop]

/-- Witness of `FromOptions_on_copy`: the receiver, at address `0`, holds a
module; the options replace the substitutions and the module. The receiver
keeps its module and its substitutions, the record returned is at address `1`
and comes with the validation error of its empty workspace. -/
theorem FromOptions_on_copy_witness :
    (({ APIModule := ⟨"calls", "v2"⟩ } : gongParams).FromOptions
        [WithCatalogSubstitutions [("region", "us")]] =
        .ok ({ APIModule := ⟨"calls", "v2"⟩, substitutions := [("region", "us")] },
          ({ APIModule := ⟨"calls", "v2"⟩, substitutions := [("region", "us")] }
            : gongParams).ValidateParams)) ∧
      (mem.FromOptions ⟨mem.Heap.empty, 1, fun _ => { APIModule := ⟨"calls", "v2"⟩ }⟩ 0
          [mem.WithCatalogSubstitutions [("region", "us")],
            mem.WithModule ⟨"users", "v1"⟩]).store.records 0 =
        { APIModule := ⟨"calls", "v2"⟩ } ∧
      (mem.FromOptions ⟨mem.Heap.empty, 1, fun _ => { APIModule := ⟨"calls", "v2"⟩ }⟩ 0
          [mem.WithCatalogSubstitutions [("region", "us")],
            mem.WithModule ⟨"users", "v1"⟩]).params = some 1 ∧
      (mem.FromOptions ⟨mem.Heap.empty, 1, fun _ => { APIModule := ⟨"calls", "v2"⟩ }⟩ 0
          [mem.WithCatalogSubstitutions [("region", "us")],
            mem.WithModule ⟨"users", "v1"⟩]).store.records 1 =
        { APIModule := ⟨"users", "v1"⟩, substitutions := [("region", "us")] } ∧
      (mem.FromOptions ⟨mem.Heap.empty, 1, fun _ => { APIModule := ⟨"calls", "v2"⟩ }⟩ 0
          [mem.WithCatalogSubstitutions [("region", "us")],
            mem.WithModule ⟨"users", "v1"⟩]).err =
        some (.joinError ["missing workspace"]) :=
  have h := FromOptions_on_copy { APIModule := ⟨"calls", "v2"⟩ }
    [WithCatalogSubstitutions [("region", "us")]]
    ⟨mem.Heap.empty, 1, fun _ => { APIModule := ⟨"calls", "v2"⟩ }⟩ 0
    [mem.WithCatalogSubstitutions [("region", "us")], mem.WithModule ⟨"users", "v1"⟩]
    (by decide)
  have hrun := h.2.2.2.2.1
    ⟨mem.Heap.empty, { APIModule := ⟨"users", "v1"⟩, substitutions := [("region", "us")] }⟩ 2 rfl
  ⟨(h.1 { APIModule := ⟨"calls", "v2"⟩, substitutions := [("region", "us")] } (by decide)).1,
    h.2.2.1, hrun.2.1, hrun.2.2.2.1, hrun.2.2.2.2.2⟩

end gong
